import Mathlib

/-!
Verification development for the time-window transmission-admission scheduler
(`src/mesh/TimeWindow.*`, `src/mesh/PacketQueue.h`, `src/mesh/PriorityPacketQueue.h`,
`src/mesh/RadioInterface*.cpp`, `src/plugins/TimeWindowPlugin.*`).

Modelling conventions:
* `uint32_t` wall-clock samples (`millis()`) are `Nat` values; the C unsigned
  subtraction `a - b` used for ages and elapsed times is modelled by `sub32`
  (explicit `% 2^32`).  Statistics counters are modelled as `Nat`; their
  32-bit wraparound after 2^32 increments is out of scope of the claims.
* Packet pointers are modelled as packet values; the null-pointer branches of
  the C++ code (`if (!p)`) are unreachable in the modelled flows because the
  queue never stores a null pointer and are therefore not modelled.
* Calls to `packetPool.release` are modelled as lists of released packets
  returned by (or threaded through) each operation, so exactly-once release
  claims can be stated about the release trace.
-/

/-- `2^32`, the modulus of the firmware's `uint32_t` arithmetic. -/
def U32 : Nat := 4294967296

/-- C `uint32_t` subtraction `a - b` (as used for `millis()` differences). -/
def sub32 (a b : Nat) : Nat := (a + (U32 - b % U32)) % U32

theorem sub32_of_le {a b : Nat} (h1 : b ≤ a) (h2 : a < U32) :
    sub32 a b = a - b := by
  unfold sub32
  have hbU : b < U32 := lt_of_le_of_lt h1 h2
  rw [Nat.mod_eq_of_lt hbU]
  have he : a + (U32 - b) = (a - b) + U32 := by omega
  rw [he, Nat.add_mod_right, Nat.mod_eq_of_lt (by omega)]

/-- C `uint32_t` multiplication `a * b` (as used for the eviction threshold
`packetExpirySeconds * 1000`, which wraps mod 2^32 for large expiry
settings). -/
def mul32 (a b : Nat) : Nat := a * b % U32

theorem mul32_eq_of_lt {a b : Nat} (h : a * b < U32) : mul32 a b = a * b :=
  Nat.mod_eq_of_lt h

/-! ## Packet model (`meshtastic_MeshPacket`) -/

/-- `meshtastic_MeshPacket_Priority` values distinguished by the code. -/
inductive MPriority where
  | UNSET
  | MIN
  | BACKGROUND
  | DEFAULT
  | RELIABLE
  | ACK
  | MAX
deriving DecidableEq, Repr

/-- `meshtastic_PortNum` values distinguished by the code. -/
inductive PortNum where
  | UNKNOWN_APP
  | TEXT_MESSAGE_APP
  | POSITION_APP
  | NODEINFO_APP
  | TELEMETRY_APP
  | EMERGENCY_APP
  | TIME_WINDOW_APP
deriving DecidableEq, Repr

/-- `which_payload_variant` of a mesh packet: the `decoded` variant carries
`decoded.portnum`; everything else (e.g. `encrypted`) is collapsed. -/
inductive PayloadVariant where
  | decoded (portnum : PortNum)
  | encrypted
deriving DecidableEq, Repr

/-- The fields of `meshtastic_MeshPacket` read by the modelled code. -/
structure MeshPacket where
  id : Nat
  want_ack : Bool
  priority : MPriority
  payload_variant : PayloadVariant
  payloadlen : Nat
deriving DecidableEq, Repr

/-- `ErrorCode` values used by the radio send paths. -/
inductive ErrorCode where
  | ok
  | noRadio
  | invalidLength
  | invalidConfig
deriving DecidableEq, Repr

/-! ## Time window (`src/mesh/TimeWindow.h` / `TimeWindow.cpp`) -/

/-- `meshtastic::TimeWindowMode`. -/
inductive TimeWindowMode where
  | DROP_PACKETS
  | QUEUE_PACKETS
  | RECEIVE_ONLY
deriving DecidableEq, Repr

/-- `meshtastic::TimeWindowConfig` (hour/minute fields are `uint8_t`). -/
structure TimeWindowConfig where
  enabled : Bool
  start_hour : Nat
  start_minute : Nat
  end_hour : Nat
  end_minute : Nat
  window_mode : TimeWindowMode
  max_queue_size : Nat
  packet_expiry_secs : Nat
deriving DecidableEq, Repr

/-- `isTimeInWindow` from `src/mesh/TimeWindow.cpp` lines 7-20. -/
def isTimeInWindow (cfg : TimeWindowConfig) (hour minute : Nat) : Bool :=
  let current := hour * 60 + minute
  let start := cfg.start_hour * 60 + cfg.start_minute
  let e := cfg.end_hour * 60 + cfg.end_minute
  if start ≤ e then
    decide (start ≤ current) && decide (current < e)
  else
    decide (start ≤ current) || decide (current < e)

/-! ## Global configuration (`config.lora.*` as read by `RadioInterface`) -/

/-- The `config.lora` fields read by the time-window feature. -/
structure LoraConfig where
  time_window_enabled : Bool
  window_start_hour : Nat
  window_start_minute : Nat
  window_end_hour : Nat
  window_end_minute : Nat
  window_mode : TimeWindowMode
  window_queue_size : Nat
  window_packet_expire_secs : Nat
deriving DecidableEq, Repr

/-- The slice of the global `config` used by the modelled code. -/
structure Config where
  has_lora : Bool
  lora : LoraConfig
deriving DecidableEq, Repr

/-- `RadioInterface::isOperationAllowed` from `src/mesh/RadioInterfaceTime.cpp`
lines 10-36.  `millis` is the `millis()` sample taken by the function. -/
def isOperationAllowed (config : Config) (millis : Nat) : Bool :=
  if !config.has_lora || !config.lora.time_window_enabled then
    true
  else
    let now := millis / 1000
    let daySeconds := now % (24 * 3600)
    let currentHour := daySeconds / 3600
    let currentMinute := daySeconds % 3600 / 60
    let currentTime := currentHour * 60 + currentMinute
    let startTime := config.lora.window_start_hour * 60 + config.lora.window_start_minute
    let endTime := config.lora.window_end_hour * 60 + config.lora.window_end_minute
    if startTime ≤ endTime then
      decide (startTime ≤ currentTime) && decide (currentTime < endTime)
    else
      decide (startTime ≤ currentTime) || decide (currentTime < endTime)

/-! ## FIFO packet queue (`src/mesh/PacketQueue.h`) -/

/-- `PacketQueue::QueuedPacket`. -/
structure QueuedPacket where
  packet : MeshPacket
  enqueue_time : Nat
deriving DecidableEq, Repr

/-- `PacketQueue::QueueStats` (also `PriorityPacketQueue::QueueStats`). -/
structure QueueStats where
  totalQueued : Nat
  expiredPackets : Nat
  queueOverflows : Nat
  totalQueueTime : Nat
  maxQueueTime : Nat
deriving DecidableEq, Repr

/-- `QueueStats::reset` (`memset(this, 0, sizeof(*this))`). -/
def QueueStats.reset : QueueStats :=
  { totalQueued := 0, expiredPackets := 0, queueOverflows := 0
    totalQueueTime := 0, maxQueueTime := 0 }

/-- `meshtastic::PacketQueue`: `std::vector` kept in arrival order. -/
structure PacketQueue where
  maxQueueSize : Nat
  packetExpirySeconds : Nat
  packets : List QueuedPacket
  stats : QueueStats
deriving DecidableEq, Repr

/-- `PacketQueue::enqueue` (lines 30-39); `now` is the `millis()` sample. -/
def PacketQueue.enqueue (q : PacketQueue) (p : MeshPacket) (now : Nat) :
    Bool × PacketQueue :=
  if q.maxQueueSize ≤ q.packets.length then
    (false, { q with stats := { q.stats with queueOverflows := q.stats.queueOverflows + 1 } })
  else
    (true, { q with
      packets := q.packets ++ [{ packet := p, enqueue_time := now }]
      stats := { q.stats with totalQueued := q.stats.totalQueued + 1 } })

/-- `PacketQueue::dequeue` (lines 45-59); returns the front packet (ownership
moves to the caller) or `none` when empty. -/
def PacketQueue.dequeue (q : PacketQueue) (now : Nat) :
    Option MeshPacket × PacketQueue :=
  match q.packets with
  | [] => (none, q)
  | front :: rest =>
      let queueTime := sub32 now front.enqueue_time / 1000
      (some front.packet,
       { q with
         packets := rest
         stats := { q.stats with
           totalQueueTime := q.stats.totalQueueTime + queueTime
           maxQueueTime := max q.stats.maxQueueTime queueTime } })

/-- The scan of `PacketQueue::cleanExpired` (lines 64-77): returns the kept
entries (in order), the number of evicted entries, and the packets released
to the pool (in release order). -/
def fifoCleanLoop (expiryMs now : Nat) :
    List QueuedPacket → List QueuedPacket × Nat × List MeshPacket
  | [] => ([], 0, [])
  | e :: rest =>
      let r := fifoCleanLoop expiryMs now rest
      if expiryMs ≤ sub32 now e.enqueue_time then
        (r.1, r.2.1 + 1, e.packet :: r.2.2)
      else
        (e :: r.1, r.2.1, r.2.2)

/-- `PacketQueue::cleanExpired`; second component is the release trace.  The
eviction threshold `packetExpirySeconds * 1000` is a `uint32_t` product
(line 69), so it is computed with `mul32`. -/
def PacketQueue.cleanExpired (q : PacketQueue) (now : Nat) :
    PacketQueue × List MeshPacket :=
  let r := fifoCleanLoop (mul32 q.packetExpirySeconds 1000) now q.packets
  ({ q with
     packets := r.1
     stats := { q.stats with expiredPackets := q.stats.expiredPackets + r.2.1 } },
   r.2.2)

/-- `PacketQueue::clear` (lines 82-87); second component is the release trace. -/
def PacketQueue.clear (q : PacketQueue) : PacketQueue × List MeshPacket :=
  ({ q with packets := [] }, q.packets.map (·.packet))

/-- `PacketQueue::getAvgQueueTime` (lines 114-116). -/
def PacketQueue.getAvgQueueTime (q : PacketQueue) : Nat :=
  if q.stats.totalQueued ≠ 0 then q.stats.totalQueueTime / q.stats.totalQueued else 0

/-! ## Priority packet queue (`src/mesh/PriorityPacketQueue.h`) -/

/-- `PriorityPacketQueue::QueuedPacket::calculatePriority` (lines 33-62).
The null-pointer branch (`if (!p) return 0`) is unreachable here because the
modelled queue only stores actual packets. -/
def calculatePriority (p : MeshPacket) : Nat :=
  let pr0 := 1
  let pr1 := if p.want_ack then pr0 + 2 else pr0
  let pr2 :=
    if p.priority = MPriority.RELIABLE then pr1 + 3
    else if p.priority = MPriority.ACK then pr1 + 2
    else pr1
  match p.payload_variant with
  | .decoded portnum =>
      let pr3 := if portnum = PortNum.POSITION_APP then pr2 + 1 else pr2
      if portnum = PortNum.EMERGENCY_APP then pr3 + 4 else pr3
  | .encrypted => pr2

/-- `PriorityPacketQueue::QueuedPacket`: entry with its priority score,
computed once at construction (enqueue) time. -/
structure PQQueuedPacket where
  packet : MeshPacket
  enqueue_time : Nat
  priority : Nat
deriving DecidableEq, Repr

/-- Selection core of `std::priority_queue::top`/`pop` on a nonempty store
`e :: rest`: returns an entry of maximal `priority` together with the
remaining entries.  `operator<` compares only `priority`, so the order among
equal priorities is unspecified in C++; the model deterministically picks the
earliest-stored entry of maximal priority. -/
def pqSelect (e : PQQueuedPacket) :
    List PQQueuedPacket → PQQueuedPacket × List PQQueuedPacket
  | [] => (e, [])
  | f :: rest2 =>
      let mr := pqSelect f rest2
      if e.priority < mr.1.priority then (mr.1, e :: mr.2) else (e, f :: rest2)

/-- Model of `top`/`pop` over the stored entries (`none` when empty). -/
def pqPopMax : List PQQueuedPacket → Option (PQQueuedPacket × List PQQueuedPacket)
  | [] => none
  | e :: rest => some (pqSelect e rest)

theorem pqSelect_perm (e : PQQueuedPacket) (rest : List PQQueuedPacket) :
    (e :: rest).Perm ((pqSelect e rest).1 :: (pqSelect e rest).2) := by
  induction rest generalizing e with
  | nil => simp [pqSelect]
  | cons f rest2 ih =>
      simp only [pqSelect]
      by_cases hc : e.priority < (pqSelect f rest2).1.priority
      · simp only [hc, if_true]
        have h1 := (ih f).cons e
        exact h1.trans (List.Perm.swap (pqSelect f rest2).1 e (pqSelect f rest2).2)
      · simp only [hc, if_false]
        exact List.Perm.refl _

theorem pqSelect_max (e : PQQueuedPacket) (rest : List PQQueuedPacket) :
    ∀ x ∈ e :: rest, x.priority ≤ (pqSelect e rest).1.priority := by
  induction rest generalizing e with
  | nil =>
      intro x hx
      simp only [List.mem_singleton] at hx
      simp [pqSelect, hx]
  | cons f rest2 ih =>
      intro x hx
      simp only [pqSelect]
      by_cases hc : e.priority < (pqSelect f rest2).1.priority
      · simp only [hc, if_true]
        rcases List.mem_cons.mp hx with hx | hx
        · exact hx ▸ Nat.le_of_lt hc
        · exact ih f x hx
      · simp only [hc, if_false]
        rcases List.mem_cons.mp hx with hx | hx
        · exact hx ▸ Nat.le_refl _
        · exact Nat.le_trans (ih f x hx) (Nat.not_lt.mp hc)

theorem pqSelect_length (e : PQQueuedPacket) (rest : List PQQueuedPacket) :
    (pqSelect e rest).2.length = rest.length := by
  have := (pqSelect_perm e rest).length_eq
  simpa using this.symm

theorem pqPopMax_perm {l : List PQQueuedPacket} {m : PQQueuedPacket}
    {r : List PQQueuedPacket} (h : pqPopMax l = some (m, r)) :
    l.Perm (m :: r) := by
  cases l with
  | nil => simp [pqPopMax] at h
  | cons e rest =>
      simp only [pqPopMax, Option.some.injEq] at h
      have := pqSelect_perm e rest
      rw [h] at this
      exact this

theorem pqPopMax_max {l : List PQQueuedPacket} {m : PQQueuedPacket}
    {r : List PQQueuedPacket} (h : pqPopMax l = some (m, r)) :
    ∀ x ∈ l, x.priority ≤ m.priority := by
  cases l with
  | nil => simp [pqPopMax] at h
  | cons e rest =>
      simp only [pqPopMax, Option.some.injEq] at h
      have := pqSelect_max e rest
      rw [h] at this
      exact this

/-- The drain-and-rebuild loop of `PriorityPacketQueue::cleanExpired`
(lines 95-111), fuel-indexed so that it is structurally recursive: pops every
entry; expired ones are counted and their packets released (in pop order),
survivors are pushed into the rebuilt queue (in pop order).  Each pop removes
exactly one entry, so fuel equal to the store's length makes the model exact
(the zero-fuel branch with a nonempty store is unreachable from the entry
point `pqCleanLoop`).  Returns (rebuilt entries, expired count, release
trace). -/
def pqCleanGo (expiryMs now : Nat) :
    Nat → List PQQueuedPacket → List PQQueuedPacket × Nat × List MeshPacket
  | _, [] => ([], 0, [])
  | 0, _ :: _ => ([], 0, [])
  | fuel + 1, e :: rest =>
      if expiryMs ≤ sub32 now (pqSelect e rest).1.enqueue_time then
        ((pqCleanGo expiryMs now fuel (pqSelect e rest).2).1,
         (pqCleanGo expiryMs now fuel (pqSelect e rest).2).2.1 + 1,
         (pqSelect e rest).1.packet :: (pqCleanGo expiryMs now fuel (pqSelect e rest).2).2.2)
      else
        ((pqSelect e rest).1 :: (pqCleanGo expiryMs now fuel (pqSelect e rest).2).1,
         (pqCleanGo expiryMs now fuel (pqSelect e rest).2).2.1,
         (pqCleanGo expiryMs now fuel (pqSelect e rest).2).2.2)

/-- The rebuild loop at its exact fuel. -/
def pqCleanLoop (expiryMs now : Nat) (l : List PQQueuedPacket) :
    List PQQueuedPacket × Nat × List MeshPacket :=
  pqCleanGo expiryMs now l.length l

/-- The pop loop of `PriorityPacketQueue::clear` (lines 113-118), fuel-indexed
like `pqCleanGo`: releases every held packet (in pop order). -/
def pqClearGo : Nat → List PQQueuedPacket → List MeshPacket
  | _, [] => []
  | 0, _ :: _ => []
  | fuel + 1, e :: rest => (pqSelect e rest).1.packet :: pqClearGo fuel (pqSelect e rest).2

/-- The clear loop at its exact fuel. -/
def pqClearLoop (l : List PQQueuedPacket) : List MeshPacket :=
  pqClearGo l.length l

/-- `meshtastic::PriorityPacketQueue`.  `packets` holds the stored entries in
insertion order (the internal heap arrangement of `std::priority_queue` is not
observable; `pqPopMax` models `top`/`pop`).  `lastPriority` backs
`getLastPriority()`, whose declaration is missing from the sources (only its
callers in `RadioInterfaceQueue.cpp` exist); modelled from those callers as
the priority of the packet most recently enqueued or dequeued. -/
structure PriorityPacketQueue where
  maxQueueSize : Nat
  packetExpirySeconds : Nat
  packets : List PQQueuedPacket
  stats : QueueStats
  lastPriority : Nat
deriving DecidableEq, Repr

/-- `PriorityPacketQueue::enqueue` (lines 68-77). -/
def PriorityPacketQueue.enqueue (q : PriorityPacketQueue) (p : MeshPacket)
    (now : Nat) : Bool × PriorityPacketQueue :=
  if q.maxQueueSize ≤ q.packets.length then
    (false, { q with stats := { q.stats with queueOverflows := q.stats.queueOverflows + 1 } })
  else
    (true, { q with
      packets := q.packets ++ [{ packet := p, enqueue_time := now, priority := calculatePriority p }]
      stats := { q.stats with totalQueued := q.stats.totalQueued + 1 }
      lastPriority := calculatePriority p })

/-- `PriorityPacketQueue::dequeue` (lines 79-93). -/
def PriorityPacketQueue.dequeue (q : PriorityPacketQueue) (now : Nat) :
    Option MeshPacket × PriorityPacketQueue :=
  match pqPopMax q.packets with
  | none => (none, q)
  | some (top, rest) =>
      let queueTime := sub32 now top.enqueue_time / 1000
      (some top.packet,
       { q with
         packets := rest
         stats := { q.stats with
           totalQueueTime := q.stats.totalQueueTime + queueTime
           maxQueueTime := max q.stats.maxQueueTime queueTime }
         lastPriority := top.priority })

/-- `PriorityPacketQueue::cleanExpired`; second component is the release
trace.  The eviction threshold `packetExpirySeconds * 1000` is a `uint32_t`
product (line 101), so it is computed with `mul32`. -/
def PriorityPacketQueue.cleanExpired (q : PriorityPacketQueue) (now : Nat) :
    PriorityPacketQueue × List MeshPacket :=
  let r := pqCleanLoop (mul32 q.packetExpirySeconds 1000) now q.packets
  ({ q with
     packets := r.1
     stats := { q.stats with expiredPackets := q.stats.expiredPackets + r.2.1 } },
   r.2.2)

/-- `PriorityPacketQueue::clear`; second component is the release trace. -/
def PriorityPacketQueue.clear (q : PriorityPacketQueue) : PriorityPacketQueue × List MeshPacket :=
  ({ q with packets := [] }, pqClearLoop q.packets)

/-- `PriorityPacketQueue::getAvgQueueTime` (lines 140-142). -/
def PriorityPacketQueue.getAvgQueueTime (q : PriorityPacketQueue) : Nat :=
  if q.stats.totalQueued ≠ 0 then q.stats.totalQueueTime / q.stats.totalQueued else 0

/-- Multiset-level characterisation of the rebuild loop: survivors are exactly
the entries younger than the expiry bound, the count is the number of expired
entries, and the release trace contains each expired entry's packet exactly
once. -/
theorem pqCleanGo_perm (expiryMs now : Nat) :
    ∀ (fuel : Nat) (l : List PQQueuedPacket), l.length ≤ fuel →
    (pqCleanGo expiryMs now fuel l).1.Perm
      (l.filter fun x => decide (sub32 now x.enqueue_time < expiryMs))
    ∧ (pqCleanGo expiryMs now fuel l).2.1
        = (l.filter fun x => decide (expiryMs ≤ sub32 now x.enqueue_time)).length
    ∧ (pqCleanGo expiryMs now fuel l).2.2.Perm
      ((l.filter fun x => decide (expiryMs ≤ sub32 now x.enqueue_time)).map (·.packet)) := by
  intro fuel
  induction fuel with
  | zero =>
      intro l hl
      have hn : l = [] := List.length_eq_zero.mp (Nat.le_zero.mp hl)
      subst hn
      simp [pqCleanGo]
  | succ fuel ih =>
      intro l hl
      match l with
      | [] => simp [pqCleanGo]
      | e :: rest =>
          have hlen : (pqSelect e rest).2.length ≤ fuel := by
            rw [pqSelect_length]
            simp only [List.length_cons] at hl
            omega
          have ihh := ih (pqSelect e rest).2 hlen
          have hperm := pqSelect_perm e rest
          have hkeep := hperm.filter (fun x => decide (sub32 now x.enqueue_time < expiryMs))
          have hexp := hperm.filter (fun x => decide (expiryMs ≤ sub32 now x.enqueue_time))
          by_cases hc : expiryMs ≤ sub32 now (pqSelect e rest).1.enqueue_time
          · have hnlt := Nat.not_lt.mpr hc
            have hkeq : ((pqSelect e rest).1 :: (pqSelect e rest).2).filter
                (fun x => decide (sub32 now x.enqueue_time < expiryMs))
                = (pqSelect e rest).2.filter
                    (fun x => decide (sub32 now x.enqueue_time < expiryMs)) := by
              simp [List.filter_cons, hnlt]
            have heeq : ((pqSelect e rest).1 :: (pqSelect e rest).2).filter
                (fun x => decide (expiryMs ≤ sub32 now x.enqueue_time))
                = (pqSelect e rest).1 :: (pqSelect e rest).2.filter
                    (fun x => decide (expiryMs ≤ sub32 now x.enqueue_time)) := by
              simp [List.filter_cons, hc]
            rw [hkeq] at hkeep
            rw [heeq] at hexp
            simp only [pqCleanGo, hc, if_true]
            refine ⟨?_, ?_, ?_⟩
            · exact ihh.1.trans hkeep.symm
            · rw [ihh.2.1, hexp.length_eq]
              simp
            · refine (ihh.2.2.cons (pqSelect e rest).1.packet).trans ?_
              exact ((hexp.map (·.packet)).symm : _)
          · have hlt : sub32 now (pqSelect e rest).1.enqueue_time < expiryMs := Nat.not_le.mp hc
            have hkeq : ((pqSelect e rest).1 :: (pqSelect e rest).2).filter
                (fun x => decide (sub32 now x.enqueue_time < expiryMs))
                = (pqSelect e rest).1 :: (pqSelect e rest).2.filter
                    (fun x => decide (sub32 now x.enqueue_time < expiryMs)) := by
              simp [List.filter_cons, hlt]
            have heeq : ((pqSelect e rest).1 :: (pqSelect e rest).2).filter
                (fun x => decide (expiryMs ≤ sub32 now x.enqueue_time))
                = (pqSelect e rest).2.filter
                    (fun x => decide (expiryMs ≤ sub32 now x.enqueue_time)) := by
              simp [List.filter_cons, hc]
            rw [hkeq] at hkeep
            rw [heeq] at hexp
            simp only [pqCleanGo, hc, if_false]
            refine ⟨?_, ?_, ?_⟩
            · exact (ihh.1.cons (pqSelect e rest).1).trans hkeep.symm
            · rw [ihh.2.1, hexp.length_eq]
            · exact ihh.2.2.trans ((hexp.map (·.packet)).symm)

/-- Multiset-level characterisation of the rebuild loop at its exact fuel. -/
theorem pqCleanLoop_perm (expiryMs now : Nat) (l : List PQQueuedPacket) :
    (pqCleanLoop expiryMs now l).1.Perm
      (l.filter fun x => decide (sub32 now x.enqueue_time < expiryMs))
    ∧ (pqCleanLoop expiryMs now l).2.1
        = (l.filter fun x => decide (expiryMs ≤ sub32 now x.enqueue_time)).length
    ∧ (pqCleanLoop expiryMs now l).2.2.Perm
      ((l.filter fun x => decide (expiryMs ≤ sub32 now x.enqueue_time)).map (·.packet)) :=
  pqCleanGo_perm expiryMs now l.length l (Nat.le_refl _)

theorem pqClearGo_perm :
    ∀ (fuel : Nat) (l : List PQQueuedPacket), l.length ≤ fuel →
    (pqClearGo fuel l).Perm (l.map (·.packet)) := by
  intro fuel
  induction fuel with
  | zero =>
      intro l hl
      have hn : l = [] := List.length_eq_zero.mp (Nat.le_zero.mp hl)
      subst hn
      simp [pqClearGo]
  | succ fuel ih =>
      intro l hl
      match l with
      | [] => simp [pqClearGo]
      | e :: rest =>
          have hlen : (pqSelect e rest).2.length ≤ fuel := by
            rw [pqSelect_length]
            simp only [List.length_cons] at hl
            omega
          have ihh := ih (pqSelect e rest).2 hlen
          have hperm := pqSelect_perm e rest
          simp only [pqClearGo]
          refine (ihh.cons (pqSelect e rest).1.packet).trans ?_
          exact ((hperm.map (·.packet)).symm : _)

/-- The clear loop releases each held packet exactly once. -/
theorem pqClearLoop_perm (l : List PQQueuedPacket) :
    (pqClearLoop l).Perm (l.map (·.packet)) :=
  pqClearGo_perm l.length l (Nat.le_refl _)

/-! ## Plugin override state (`src/plugins/TimeWindowPlugin.h` / `.cpp`) -/

/-- The plugin-level statistics struct (`TimeWindowPlugin.cpp` lines 10-18). -/
structure PluginStats where
  totalQueued : Nat
  totalDropped : Nat
  totalDelayed : Nat
  queueOverflows : Nat
  maxQueueTime : Nat
  sumQueueTime : Nat
  queuedPackets : Nat
deriving DecidableEq, Repr

/-- State of `TimeWindowPlugin` relevant to the override feature. -/
structure PluginState where
  isWindowActive : Bool
  temporaryOverride : Bool
  overrideActive : Bool
  overrideExpiry : Nat
  stats : PluginStats
deriving Repr

/-- `TimeWindowPlugin::getCurrentWindowState` (`TimeWindowPlugin.h` line 27). -/
def getCurrentWindowState (st : PluginState) : Bool :=
  st.isWindowActive && (!st.temporaryOverride || st.overrideActive)

/-- `handleCommand` case `FORCE_OPEN` (`TimeWindowPlugin.cpp` lines 89-94);
`now` is the `millis()` sample, `duration` the command's seconds. -/
def handleForceOpen (st : PluginState) (now duration : Nat) : PluginState :=
  { st with
    temporaryOverride := true
    overrideActive := true
    overrideExpiry := (now + duration * 1000) % U32 }

/-- `handleCommand` case `FORCE_CLOSE` (`TimeWindowPlugin.cpp` lines 96-101). -/
def handleForceClose (st : PluginState) (now duration : Nat) : PluginState :=
  { st with
    temporaryOverride := true
    overrideActive := false
    overrideExpiry := (now + duration * 1000) % U32 }

/-- `handleCommand` case `RESET_STATS` (`TimeWindowPlugin.cpp` lines 103-106):
`memset(&stats, 0, sizeof(stats))`. -/
def handleResetStats (st : PluginState) : PluginState :=
  { st with stats :=
    { totalQueued := 0, totalDropped := 0, totalDelayed := 0, queueOverflows := 0
      maxQueueTime := 0, sumQueueTime := 0, queuedPackets := 0 } }

/-! ## FIFO radio interface (`src/mesh/RadioInterface.cpp`)

`attempts` records every invocation of the physical transmit primitive
(`beginSending`/`sendTo`, abstracted as the parameter `prim`); `released`
records every `packetPool.release` call, in order. -/

structure FifoRadio where
  config : Config
  disabled : Bool
  queue : PacketQueue
  attempts : List MeshPacket
  released : List MeshPacket

/-- `RadioInterface::sendPacket` (`RadioInterface.cpp` lines 73-93).  The
radio-buffer serialisation (`beginSending`/`sendTo`) is abstracted as the
external transmit primitive `prim`. -/
def FifoRadio.sendPacket (prim : MeshPacket → ErrorCode) (st : FifoRadio)
    (p : MeshPacket) : ErrorCode × FifoRadio :=
  if st.disabled then (.noRadio, { st with released := st.released ++ [p] })
  else if p.payloadlen = 0 then (.invalidLength, { st with released := st.released ++ [p] })
  else (prim p, { st with attempts := st.attempts ++ [p] })

/-- The drain loop of the FIFO `RadioInterface::processQueuedPackets`
(`RadioInterface.cpp` lines 57-70).  `clock i` is the `millis()` sample of
iteration `i` (all `millis()` reads within one iteration are modelled as the
same sample).  `fuel` bounds the recursion; each iteration removes one queue
entry, so `fuel := ` the current queue length makes the model exact.  A
`dequeue` on a nonempty queue always yields the front packet, so the C++
null-check `if (packet)` is always taken and is not modelled. -/
def fifoDrainLoop (prim : MeshPacket → ErrorCode) (clock : Nat → Nat) :
    Nat → Nat → FifoRadio → FifoRadio
  | 0, _, st => st
  | fuel + 1, i, st =>
      match st.queue.packets with
      | [] => st
      | front :: _ =>
          let now := clock i
          let st1 := { st with queue := (st.queue.dequeue now).2 }
          let sp := FifoRadio.sendPacket prim st1 front.packet
          if sp.1 = ErrorCode.ok then
            fifoDrainLoop prim clock fuel (i + 1) sp.2
          else
            let eq := sp.2.queue.enqueue front.packet now
            if eq.1 then { sp.2 with queue := eq.2 }
            else { sp.2 with queue := eq.2, released := sp.2.released ++ [front.packet] }

/-- The FIFO `RadioInterface::processQueuedPackets` (`RadioInterface.cpp`
lines 49-71): early-out when the feature is off, then expiry cleaning, then
the drain loop. -/
def FifoRadio.processQueuedPackets (prim : MeshPacket → ErrorCode)
    (clock : Nat → Nat) (st : FifoRadio) : FifoRadio :=
  if !st.config.has_lora || !st.config.lora.time_window_enabled then st
  else
    let cr := st.queue.cleanExpired (clock 0)
    let st1 := { st with queue := cr.1, released := st.released ++ cr.2 }
    fifoDrainLoop prim clock st1.queue.packets.length 1 st1

/-- The FIFO `RadioInterface::send` (`RadioInterface.cpp` lines 13-47).  The
`default:` branch of the mode switch (invalid enum value) cannot arise for
the three-valued `TimeWindowMode`. -/
def FifoRadio.send (prim : MeshPacket → ErrorCode) (clock : Nat → Nat)
    (st : FifoRadio) (p : MeshPacket) : ErrorCode × FifoRadio :=
  if st.config.has_lora && st.config.lora.time_window_enabled
      && !(isOperationAllowed st.config (clock 0)) then
    match st.config.lora.window_mode with
    | .DROP_PACKETS => (.noRadio, { st with released := st.released ++ [p] })
    | .QUEUE_PACKETS =>
        let eq := st.queue.enqueue p (clock 0)
        if eq.1 then (.ok, { st with queue := eq.2 })
        else (.noRadio, { st with queue := eq.2, released := st.released ++ [p] })
    | .RECEIVE_ONLY => (.noRadio, { st with released := st.released ++ [p] })
  else
    let st1 := FifoRadio.processQueuedPackets prim clock st
    FifoRadio.sendPacket prim st1 p

/-! ## Priority radio interface (`src/mesh/RadioInterfaceQueue.cpp`) -/

/-- The anonymous-namespace `QueueMetrics` (`RadioInterfaceQueue.cpp`
lines 12-23). -/
structure QueueMetrics where
  lastProcessTime : Nat
  highPriorityCount : Nat
  normalPriorityCount : Nat
  dropCount : Nat
deriving DecidableEq, Repr

structure PQRadio where
  config : Config
  disabled : Bool
  queue : PriorityPacketQueue
  metrics : QueueMetrics
  attempts : List MeshPacket
  released : List MeshPacket

/-- `RadioInterface::sendPacket` as called from the priority drain (same
function as `FifoRadio.sendPacket`, threaded through `PQRadio`). -/
def PQRadio.sendPacket (prim : MeshPacket → ErrorCode) (st : PQRadio)
    (p : MeshPacket) : ErrorCode × PQRadio :=
  if st.disabled then (.noRadio, { st with released := st.released ++ [p] })
  else if p.payloadlen = 0 then (.invalidLength, { st with released := st.released ++ [p] })
  else (prim p, { st with attempts := st.attempts ++ [p] })

/-- The fairness-bounded drain loop of the priority
`RadioInterface::processQueuedPackets` (`RadioInterfaceQueue.cpp` lines
79-108).  `maxPPC` is `MAX_PACKETS_PER_CYCLE`, whose defining macro is not
among the sources (only this use site is); it is kept as a parameter.  The
`maxProcessTime` budget is the literal 100 ms of line 80.  Returns the new
state and `packetsProcessed`. -/
def pqDrainLoop (prim : MeshPacket → ErrorCode) (clock : Nat → Nat)
    (startTime maxPPC : Nat) : Nat → Nat → Nat → PQRadio → PQRadio × Nat
  | 0, _, processed, st => (st, processed)
  | fuel + 1, i, processed, st =>
      match st.queue.packets with
      | [] => (st, processed)
      | e :: rest =>
          let now := clock i
          if sub32 now startTime < 100 ∧ processed < maxPPC then
            -- `dequeue` on a nonempty queue yields the selected entry, so the
            -- C++ null-check `if (packet)` is always taken.
            let p := (pqSelect e rest).1.packet
            let st1 := { st with queue := (st.queue.dequeue now).2 }
            let isHigh := decide (2 < st1.queue.lastPriority)
            let sp := PQRadio.sendPacket prim st1 p
            if sp.1 = ErrorCode.ok then
              let m := sp.2.metrics
              let m1 :=
                if isHigh then { m with highPriorityCount := m.highPriorityCount + 1 }
                else { m with normalPriorityCount := m.normalPriorityCount + 1 }
              pqDrainLoop prim clock startTime maxPPC
                fuel (i + 1) (processed + 1)
                { sp.2 with metrics := m1 }
            else
              let eq := sp.2.queue.enqueue p now
              if eq.1 then ({ sp.2 with queue := eq.2 }, processed)
              else
                ({ sp.2 with
                   queue := eq.2
                   metrics := { sp.2.metrics with dropCount := sp.2.metrics.dropCount + 1 }
                   released := sp.2.released ++ [p] }, processed)
          else (st, processed)

/-- The priority `RadioInterface::processQueuedPackets`
(`RadioInterfaceQueue.cpp` lines 70-109).  `clock 0` models both the
`millis()` read inside `cleanExpired` and the `startTime` read on line 79
(adjacent calls); loop iteration `j` uses `clock (j+1)`.  Also returns the
cycle's `packetsProcessed`. -/
def PQRadio.processQueuedPackets (prim : MeshPacket → ErrorCode)
    (clock : Nat → Nat) (maxPPC : Nat) (st : PQRadio) : PQRadio × Nat :=
  if !st.config.has_lora || !st.config.lora.time_window_enabled then (st, 0)
  else
    let cr := st.queue.cleanExpired (clock 0)
    let st1 := { st with queue := cr.1, released := st.released ++ cr.2 }
    pqDrainLoop prim clock (clock 0) maxPPC st1.queue.packets.length 1 0 st1

/-! ## Time-window radio draft (`src/mesh/RadioInterfaceTime.cpp`) -/

/-- State of the `RadioInterfaceTime.cpp` draft: its `packetQueue` is a bare
`std::vector<PacketQueueEntry>` whose entries have the same fields as
`QueuedPacket`. -/
structure TimeRadio where
  config : Config
  packetQueue : List QueuedPacket
  attempts : List MeshPacket
  released : List MeshPacket

/-- `RadioInterface::cleanExpiredPackets` (`RadioInterfaceTime.cpp` lines
38-56): the same in-order scan as `PacketQueue::cleanExpired` (reusing
`fifoCleanLoop`), but guarded by the feature flags and without statistics.
The threshold `window_packet_expire_secs * 1000` is a `uint32_t` product
(line 48), so it is computed with `mul32`. -/
def TimeRadio.cleanExpiredPackets (st : TimeRadio) (now : Nat) : TimeRadio :=
  if !st.config.has_lora || !st.config.lora.time_window_enabled then st
  else
    let r := fifoCleanLoop (mul32 st.config.lora.window_packet_expire_secs 1000) now st.packetQueue
    { st with packetQueue := r.1, released := st.released ++ r.2.2 }

/-- The drain loop of `RadioInterfaceTime.cpp` lines 65-76 under an ORACLE
for the inner `RadioInterface::send(qp.packet)` call: `send` gives the
outcome that call would have if it returned.  In the actual draft that call
re-enters the full send path, which ends in an unconditional self-call
(line 120) and therefore never returns once reached; the faithful
fuel-indexed model of that mutual recursion is `timeSendGo` /
`timeProcessGo` / `timeLoopGo` below, and `timeProcessGo_diverges` proves
the real drain completes at no call depth when the window is open and the
queue nonempty.  This oracle-based loop is used only for the guard behaviour
of `TimeRadio.processQueuedPackets` (which returns before reaching the loop
whenever the feature is off or the window verdict is Suppressed). -/
def timeDrainLoop (send : MeshPacket → ErrorCode) :
    List QueuedPacket → List QueuedPacket × List MeshPacket
  | [] => ([], [])
  | e :: rest =>
      match send e.packet with
      | .ok =>
          let r := timeDrainLoop send rest
          (r.1, e.packet :: r.2)
      | _ => (e :: rest, [e.packet])

/-- `RadioInterface::processQueuedPackets` of `RadioInterfaceTime.cpp`
(lines 58-77): unlike the other two drain variants, it also checks
`isOperationAllowed` before draining.  `nowMillis` is the call's `millis()`
sample. -/
def TimeRadio.processQueuedPackets (send : MeshPacket → ErrorCode)
    (st : TimeRadio) (nowMillis : Nat) : TimeRadio :=
  if !st.config.has_lora || !st.config.lora.time_window_enabled
      || !(isOperationAllowed st.config nowMillis) then st
  else
    let st1 := st.cleanExpiredPackets nowMillis
    let r := timeDrainLoop send st1.packetQueue
    { st1 with packetQueue := r.1, attempts := st1.attempts ++ r.2 }

/-! Faithful fuel-indexed model of the mutual recursion of
`RadioInterfaceTime.cpp`: `send` (lines 79-121), `processQueuedPackets`
(lines 58-77) and its drain loop (lines 65-76).  `fuel` bounds the call
depth; a result of `none` means the computation has not completed within
that depth, so a call returning `none` for every fuel never returns at all.
Every C++ function call consumes one fuel unit (including calls that return
at their guard).  The unconditional self-call
at line 120 (`return RadioInterface::send(p)`) is the tail call of
`timeSendGo`; the drain loop reads the front packet before the inner send
and erases the front entry (`drop 1`) after a successful send.  All
`millis()` reads within one outer call are modelled as the same sample
`nowMillis`. -/

mutual

/-- `RadioInterface::send` of `RadioInterfaceTime.cpp` lines 79-121. -/
def timeSendGo : Nat → TimeRadio → MeshPacket → Nat → Option (ErrorCode × TimeRadio)
  | 0, _, _, _ => none
  | fuel + 1, st, p, nowMillis =>
      if st.config.has_lora && st.config.lora.time_window_enabled then
        if isOperationAllowed st.config nowMillis then
          match timeProcessGo fuel st nowMillis with
          | none => none
          | some st1 => timeSendGo fuel st1 p nowMillis
        else
          match st.config.lora.window_mode with
          | .DROP_PACKETS =>
              some (ErrorCode.noRadio, { st with released := st.released ++ [p] })
          | .QUEUE_PACKETS =>
              if st.config.lora.window_queue_size ≤ st.packetQueue.length then
                some (ErrorCode.noRadio, { st with released := st.released ++ [p] })
              else
                some (ErrorCode.ok,
                  { st with packetQueue :=
                      st.packetQueue ++ [{ packet := p, enqueue_time := nowMillis }] })
          | .RECEIVE_ONLY =>
              some (ErrorCode.noRadio, { st with released := st.released ++ [p] })
      else
        timeSendGo fuel st p nowMillis

/-- `RadioInterface::processQueuedPackets` of `RadioInterfaceTime.cpp`
lines 58-77, with the real (re-entrant) inner send. -/
def timeProcessGo : Nat → TimeRadio → Nat → Option TimeRadio
  | 0, _, _ => none
  | fuel + 1, st, nowMillis =>
      if !st.config.has_lora || !st.config.lora.time_window_enabled
          || !(isOperationAllowed st.config nowMillis) then some st
      else timeLoopGo fuel (st.cleanExpiredPackets nowMillis) nowMillis

/-- The drain loop of `RadioInterfaceTime.cpp` lines 65-76 with the real
(re-entrant) inner send. -/
def timeLoopGo : Nat → TimeRadio → Nat → Option TimeRadio
  | 0, _, _ => none
  | fuel + 1, st, nowMillis =>
      match st.packetQueue with
      | [] => some st
      | e :: _ =>
          match timeSendGo fuel st e.packet nowMillis with
          | none => none
          | some (result, st2) =>
              if result = ErrorCode.ok then
                timeLoopGo fuel
                  { st2 with packetQueue := st2.packetQueue.drop 1 } nowMillis
              else some st2

end

/-! ## Operation sequences over the FIFO queue (for statistics claims) -/

/-- The queue-mutating operations reachable in the sources: the queue-level
interface plus whole drain cycles, and the operator statistics reset
(`QueueStats::reset`, triggered by the `RESET_STATS` operator command). -/
inductive QueueOp where
  | enq (p : MeshPacket) (now : Nat)
  | deq (now : Nat)
  | clean (now : Nat)
  | clearq
  | drain (prim : MeshPacket → ErrorCode) (clock : Nat → Nat)
  | resetStats

def applyOp (op : QueueOp) (st : FifoRadio) : FifoRadio :=
  match op with
  | .enq p now => { st with queue := (st.queue.enqueue p now).2 }
  | .deq now => { st with queue := (st.queue.dequeue now).2 }
  | .clean now =>
      let r := st.queue.cleanExpired now
      { st with queue := r.1, released := st.released ++ r.2 }
  | .clearq =>
      let r := st.queue.clear
      { st with queue := r.1, released := st.released ++ r.2 }
  | .drain prim clock => FifoRadio.processQueuedPackets prim clock st
  | .resetStats => { st with queue := { st.queue with stats := QueueStats.reset } }

def runOps : List QueueOp → FifoRadio → FifoRadio
  | [], st => st
  | op :: ops, st => runOps ops (applyOp op st)

/-! ## Test fixtures -/

/-- A minimal packet carrying only an id (no flags that affect priority). -/
def pkt (n : Nat) : MeshPacket :=
  { id := n, want_ack := false, priority := .DEFAULT
    payload_variant := .encrypted, payloadlen := 1 }

/-- A 22:00-04:00 window configuration (wrapping past midnight). -/
def windowConfig2204 : TimeWindowConfig :=
  { enabled := true, start_hour := 22, start_minute := 0, end_hour := 4, end_minute := 0
    window_mode := .QUEUE_PACKETS, max_queue_size := 32, packet_expiry_secs := 3600 }

/-- An enabled 09:00-17:00 window over the global config (closed at 18:00). -/
def cfgDay : Config :=
  { has_lora := true
    lora := { time_window_enabled := true
              window_start_hour := 9, window_start_minute := 0
              window_end_hour := 17, window_end_minute := 0
              window_mode := .DROP_PACKETS
              window_queue_size := 5, window_packet_expire_secs := 3600 } }

/-- `millis()` sample corresponding to 18:00:00 wall-clock time. -/
def millis1800 : Nat := 64800000

/-- An empty FIFO queue with capacity 5. -/
def emptyFifoQueue : PacketQueue :=
  { maxQueueSize := 5, packetExpirySeconds := 3600, packets := [], stats := QueueStats.reset }

/-- An empty priority queue with capacity 5. -/
def emptyPQQueue : PriorityPacketQueue :=
  { maxQueueSize := 5, packetExpirySeconds := 3600, packets := [], stats := QueueStats.reset
    lastPriority := 0 }

/-- A full FIFO queue (capacity 1, one held packet). -/
def fullFifoQueue : PacketQueue :=
  { maxQueueSize := 1, packetExpirySeconds := 3600
    packets := [{ packet := pkt 1, enqueue_time := 0 }], stats := QueueStats.reset }

/-- A dormant plugin state: window closed, no override armed, zero stats. -/
def pluginIdleClosed : PluginState :=
  { isWindowActive := false, temporaryOverride := false, overrideActive := false
    overrideExpiry := 0
    stats := { totalQueued := 0, totalDropped := 0, totalDelayed := 0, queueOverflows := 0
               maxQueueTime := 0, sumQueueTime := 0, queuedPackets := 0 } }

/-- The plugin state after a `FORCE_OPEN 600s` command arrives at 18:00 while
the window is closed. -/
def pluginForcedOpen : PluginState := handleForceOpen pluginIdleClosed millis1800 600

/-- A FIFO radio at 18:00 (outside the 09:00-17:00 window), empty queue. -/
def radioDayEmpty : FifoRadio :=
  { config := cfgDay, disabled := false, queue := emptyFifoQueue
    attempts := [], released := [] }

/-! ## Claim theorems -/

/-- **C1.** For every enabled configuration and every wall-clock instant, the
window check returns true exactly when `current = hour*60 + minute` lies in
the configured half-open interval: when `start <= end` it returns true iff
`start <= current < end`, and when `start > end` (window spanning midnight)
iff `current >= start` or `current < end`; `isOperationAllowed` computes the
same check from the global config; and for a 22:00-04:00 window the check is
open at 23:59, 00:00, 03:59 and 22:00, and closed at 04:00 and 21:59. -/
theorem isTimeInWindow_half_open_spec :
    (∀ (cfg : TimeWindowConfig) (hour minute : Nat), hour < 24 → minute < 60 →
      ((cfg.start_hour * 60 + cfg.start_minute ≤ cfg.end_hour * 60 + cfg.end_minute →
          (isTimeInWindow cfg hour minute = true ↔
            (cfg.start_hour * 60 + cfg.start_minute ≤ hour * 60 + minute
              ∧ hour * 60 + minute < cfg.end_hour * 60 + cfg.end_minute)))
        ∧ (cfg.end_hour * 60 + cfg.end_minute < cfg.start_hour * 60 + cfg.start_minute →
          (isTimeInWindow cfg hour minute = true ↔
            (cfg.start_hour * 60 + cfg.start_minute ≤ hour * 60 + minute
              ∨ hour * 60 + minute < cfg.end_hour * 60 + cfg.end_minute)))))
    ∧ (∀ (c : Config) (millis : Nat), c.has_lora = true →
        c.lora.time_window_enabled = true →
        isOperationAllowed c millis =
          isTimeInWindow
            { enabled := c.lora.time_window_enabled
              start_hour := c.lora.window_start_hour
              start_minute := c.lora.window_start_minute
              end_hour := c.lora.window_end_hour
              end_minute := c.lora.window_end_minute
              window_mode := c.lora.window_mode
              max_queue_size := c.lora.window_queue_size
              packet_expiry_secs := c.lora.window_packet_expire_secs }
            (millis / 1000 % 86400 / 3600) (millis / 1000 % 86400 % 3600 / 60))
    ∧ (isTimeInWindow windowConfig2204 23 59 = true
        ∧ isTimeInWindow windowConfig2204 0 0 = true
        ∧ isTimeInWindow windowConfig2204 3 59 = true
        ∧ isTimeInWindow windowConfig2204 22 0 = true
        ∧ isTimeInWindow windowConfig2204 4 0 = false
        ∧ isTimeInWindow windowConfig2204 21 59 = false) := by
  refine ⟨?_, ?_, by decide⟩
  · intro cfg hour minute _ _
    constructor
    · intro hse
      simp [isTimeInWindow, hse]
    · intro hes
      have hn : ¬ (cfg.start_hour * 60 + cfg.start_minute ≤
          cfg.end_hour * 60 + cfg.end_minute) := by omega
      simp [isTimeInWindow, hn]
  · intro c millis h1 h2
    simp only [isOperationAllowed, isTimeInWindow, h1, h2]
    norm_num

/-- Witness for C1 at the 22:00-04:00 configuration and instant 23:59. -/
theorem isTimeInWindow_half_open_spec_witness :
    (23 < 24 ∧ 59 < 60
      ∧ windowConfig2204.end_hour * 60 + windowConfig2204.end_minute
          < windowConfig2204.start_hour * 60 + windowConfig2204.start_minute)
    ∧ (isTimeInWindow windowConfig2204 23 59 = true ↔
        (windowConfig2204.start_hour * 60 + windowConfig2204.start_minute ≤ 23 * 60 + 59
          ∨ 23 * 60 + 59 < windowConfig2204.end_hour * 60 + windowConfig2204.end_minute)) :=
  ⟨by decide,
   ((isTimeInWindow_half_open_spec.1 windowConfig2204 23 59 (by decide) (by decide)).2
     (by decide))⟩

/-- **C2 (code bug).**  The claim says that while an armed override satisfies
`now < expiry` the admission decision uses the override's forced value, so a
forced-open override yields `SendNow` during a closed window.  The code does
not do this: with the 09:00-17:00 window closed at 18:00 and a `FORCE_OPEN`
override armed and unexpired, `getCurrentWindowState` still reports the
window closed (its formula `isWindowActive && (!temporaryOverride ||
overrideActive)` cannot yield `true` when `isWindowActive` is false, and it
never reads `overrideExpiry`), `isOperationAllowed` never consults the
plugin's override state at all, and the send path drops the packet
(`ERRNO_NO_RADIO`, one pool release) instead of transmitting it. -/
theorem override_ignored_by_admission :
    millis1800 < pluginForcedOpen.overrideExpiry
    ∧ pluginForcedOpen.temporaryOverride = true
    ∧ pluginForcedOpen.overrideActive = true
    ∧ getCurrentWindowState pluginForcedOpen = false
    ∧ isOperationAllowed cfgDay millis1800 = false
    ∧ (FifoRadio.send (fun _ => ErrorCode.ok) (fun _ => millis1800)
        radioDayEmpty (pkt 9)).1 = ErrorCode.noRadio
    ∧ (FifoRadio.send (fun _ => ErrorCode.ok) (fun _ => millis1800)
        radioDayEmpty (pkt 9)).2.released = [pkt 9]
    ∧ (FifoRadio.send (fun _ => ErrorCode.ok) (fun _ => millis1800)
        radioDayEmpty (pkt 9)).2.attempts = [] := by
  decide

/-- **C3 counterexample.**  The claim says a rejected enqueue performs no
mutation, with queue contents, occupancy and statistics all unchanged; but on
a full queue the rejected enqueue increments the overflow counter, so the
statistics do change (in both strategies the rejection branch executes
`stats.queueOverflows++`). -/
theorem enqueue_reject_mutates_stats_cex :
    (fullFifoQueue.enqueue (pkt 2) 5).1 = false
    ∧ (fullFifoQueue.enqueue (pkt 2) 5).2.packets = fullFifoQueue.packets
    ∧ ¬ ((fullFifoQueue.enqueue (pkt 2) 5).2.stats = fullFifoQueue.stats) := by
  decide

/-- Seven distinct packets. -/
def sevenPkts : List MeshPacket :=
  [pkt 1, pkt 2, pkt 3, pkt 4, pkt 5, pkt 6, pkt 7]

/-- The FIFO queue (capacity 5) after enqueueing seven distinct packets. -/
def fifoAfter7 : PacketQueue :=
  sevenPkts.foldl (fun q p => (q.enqueue p 0).2) emptyFifoQueue

/-- The priority queue (capacity 5) after enqueueing seven distinct packets. -/
def pqAfter7 : PriorityPacketQueue :=
  sevenPkts.foldl (fun q p => (q.enqueue p 0).2) emptyPQQueue

/-- **C3 (amended).**  For both queue strategies and every queue state,
`enqueue` returns false when `size >= max_queue_size`, leaving the queue
contents and occupancy unchanged while incrementing the overflow counter by
exactly one (all other statistics unchanged); otherwise it inserts the entry
and increments `total_queued` by exactly one; consequently, with
`max_queue_size = 5`, enqueueing 7 distinct packets leaves exactly 5 packets
held with the overflow counter at exactly 2, and occupancy never exceeds
`max_queue_size`. -/
theorem enqueue_capacity_amended :
    (∀ (q : PacketQueue) (p : MeshPacket) (now : Nat),
      (q.maxQueueSize ≤ q.packets.length →
        (q.enqueue p now).1 = false
        ∧ (q.enqueue p now).2.packets = q.packets
        ∧ (q.enqueue p now).2.stats
            = { q.stats with queueOverflows := q.stats.queueOverflows + 1 })
      ∧ (q.packets.length < q.maxQueueSize →
        (q.enqueue p now).1 = true
        ∧ (q.enqueue p now).2.packets = q.packets ++ [{ packet := p, enqueue_time := now }]
        ∧ (q.enqueue p now).2.stats
            = { q.stats with totalQueued := q.stats.totalQueued + 1 })
      ∧ (q.packets.length ≤ q.maxQueueSize →
        (q.enqueue p now).2.packets.length ≤ q.maxQueueSize))
    ∧ (∀ (q : PriorityPacketQueue) (p : MeshPacket) (now : Nat),
      (q.maxQueueSize ≤ q.packets.length →
        (q.enqueue p now).1 = false
        ∧ (q.enqueue p now).2.packets = q.packets
        ∧ (q.enqueue p now).2.stats
            = { q.stats with queueOverflows := q.stats.queueOverflows + 1 })
      ∧ (q.packets.length < q.maxQueueSize →
        (q.enqueue p now).1 = true
        ∧ (q.enqueue p now).2.packets
            = q.packets ++ [{ packet := p, enqueue_time := now
                              priority := calculatePriority p }]
        ∧ (q.enqueue p now).2.stats
            = { q.stats with totalQueued := q.stats.totalQueued + 1 })
      ∧ (q.packets.length ≤ q.maxQueueSize →
        (q.enqueue p now).2.packets.length ≤ q.maxQueueSize))
    ∧ (fifoAfter7.packets.length = 5
        ∧ fifoAfter7.stats.queueOverflows = 2
        ∧ fifoAfter7.stats.totalQueued = 5
        ∧ pqAfter7.packets.length = 5
        ∧ pqAfter7.stats.queueOverflows = 2
        ∧ pqAfter7.stats.totalQueued = 5) := by
  refine ⟨?_, ?_, by decide⟩
  · intro q p now
    refine ⟨fun h => ?_, fun h => ?_, fun h => ?_⟩
    · simp [PacketQueue.enqueue, h]
    · simp [PacketQueue.enqueue, Nat.not_le.mpr h]
    · by_cases hc : q.maxQueueSize ≤ q.packets.length
      · simpa [PacketQueue.enqueue, hc] using h
      · simp only [PacketQueue.enqueue, hc, if_false, List.length_append]
        simp
        omega
  · intro q p now
    refine ⟨fun h => ?_, fun h => ?_, fun h => ?_⟩
    · simp [PriorityPacketQueue.enqueue, h]
    · simp [PriorityPacketQueue.enqueue, Nat.not_le.mpr h]
    · by_cases hc : q.maxQueueSize ≤ q.packets.length
      · simpa [PriorityPacketQueue.enqueue, hc] using h
      · simp only [PriorityPacketQueue.enqueue, hc, if_false, List.length_append]
        simp
        omega

/-- Witness for C3's amended theorem: a rejected enqueue on a full queue. -/
theorem enqueue_capacity_amended_witness :
    (fullFifoQueue.maxQueueSize ≤ fullFifoQueue.packets.length)
    ∧ ((fullFifoQueue.enqueue (pkt 2) 5).1 = false
        ∧ (fullFifoQueue.enqueue (pkt 2) 5).2.packets = fullFifoQueue.packets
        ∧ (fullFifoQueue.enqueue (pkt 2) 5).2.stats
            = { fullFifoQueue.stats with
                queueOverflows := fullFifoQueue.stats.queueOverflows + 1 }) :=
  ⟨by decide, (enqueue_capacity_amended.1 fullFifoQueue (pkt 2) 5).1 (by decide)⟩

/-- **C10.**  For both queue strategies, `dequeue` on an empty queue returns
no packet and leaves the entire queue state (contents, occupancy, and every
statistics field) unchanged. -/
theorem dequeue_empty_noop :
    (∀ (q : PacketQueue) (now : Nat), q.packets = [] → q.dequeue now = (none, q))
    ∧ (∀ (q : PriorityPacketQueue) (now : Nat), q.packets = [] → q.dequeue now = (none, q)) := by
  constructor
  · intro q now h
    simp [PacketQueue.dequeue, h]
  · intro q now h
    simp [PriorityPacketQueue.dequeue, h, pqPopMax]

/-- Witness for C10 at concrete empty queues. -/
theorem dequeue_empty_noop_witness :
    (emptyFifoQueue.packets = [] ∧ emptyPQQueue.packets = [])
    ∧ emptyFifoQueue.dequeue 7 = (none, emptyFifoQueue)
    ∧ emptyPQQueue.dequeue 7 = (none, emptyPQQueue) :=
  ⟨⟨rfl, rfl⟩, dequeue_empty_noop.1 emptyFifoQueue 7 rfl,
   dequeue_empty_noop.2 emptyPQQueue 7 rfl⟩

/-- Closed form of the FIFO expiry scan. -/
theorem fifoCleanLoop_eq (expiryMs now : Nat) (l : List QueuedPacket) :
    fifoCleanLoop expiryMs now l =
      (l.filter (fun e => decide (sub32 now e.enqueue_time < expiryMs)),
       (l.filter (fun e => decide (expiryMs ≤ sub32 now e.enqueue_time))).length,
       (l.filter (fun e => decide (expiryMs ≤ sub32 now e.enqueue_time))).map (·.packet)) := by
  induction l with
  | nil => simp [fifoCleanLoop]
  | cons e rest ih =>
      by_cases hc : expiryMs ≤ sub32 now e.enqueue_time
      · simp [fifoCleanLoop, hc, Nat.not_lt.mpr hc, List.filter_cons, ih]
      · simp [fifoCleanLoop, hc, Nat.not_le.mp hc, List.filter_cons, ih]

/-- A FIFO queue holding one packet enqueued at t0 = 1000 ms with a
10-second expiry. -/
def fifoT0 : PacketQueue :=
  { maxQueueSize := 5, packetExpirySeconds := 10
    packets := [{ packet := pkt 1, enqueue_time := 1000 }], stats := QueueStats.reset }

/-- A priority queue holding one packet enqueued at t0 = 1000 ms with a
10-second expiry. -/
def pqT0 : PriorityPacketQueue :=
  { maxQueueSize := 5, packetExpirySeconds := 10
    packets := [{ packet := pkt 1, enqueue_time := 1000, priority := calculatePriority (pkt 1) }]
    stats := QueueStats.reset, lastPriority := 0 }

/-- A FIFO queue whose configured expiry makes the 32-bit threshold product
wrap: 4294968 s * 1000 = 4294968000 = 2^32 + 704, so the `uint32_t`
eviction threshold is 704 ms. -/
def fifoWrapQ : PacketQueue :=
  { maxQueueSize := 5, packetExpirySeconds := 4294968
    packets := [{ packet := pkt 8, enqueue_time := 0 }], stats := QueueStats.reset }

/-- **C4 counterexample.**  The claim says eviction removes exactly the
entries whose age is at least `packet_expire_secs*1000` milliseconds; but the
source computes that threshold in `uint32_t`, where it wraps: with
`packet_expire_secs = 4294968` (threshold claimed 4294968000 ms, wrapped
threshold 704 ms), an entry aged only 100000 ms — far below the claimed
threshold, with the clock nowhere near wrapping — is nevertheless evicted
and counted as expired. -/
theorem cleanExpired_threshold_wraps_cex :
    (∀ e ∈ fifoWrapQ.packets, e.enqueue_time ≤ 100000)
    ∧ (100000 : Nat) < U32
    ∧ (100000 : Nat) - 0 < fifoWrapQ.packetExpirySeconds * 1000
    ∧ (fifoWrapQ.cleanExpired 100000).1.packets = []
    ∧ (fifoWrapQ.cleanExpired 100000).1.stats.expiredPackets = 1
    ∧ (fifoWrapQ.cleanExpired 100000).2 = [pkt 8] := by
  decide

/-- **C4 (amended).**  For both queue strategies, expiry eviction removes
exactly the entries whose age `now - enqueue_time` is at least the 32-bit
product `packet_expire_secs*1000 mod 2^32` milliseconds — which equals
`packet_expire_secs*1000` whenever that product does not overflow
(`packet_expire_secs <= 4294967`); for larger settable values the `uint32_t`
product wraps to a smaller threshold.  Eviction increments the expired
counter once per removed entry, releases each evicted packet exactly once,
and keeps all younger entries; an entry enqueued at t0 with a 10-second
expiry survives eviction at t0+9999 ms and is removed at t0+10001 ms,
incrementing the counter by exactly 1.  (The clock hypotheses say the
monotonic clock has not wrapped past the enqueue stamps, so the `uint32_t`
age equals the arithmetic difference.) -/
theorem cleanExpired_evicts_exactly_aged :
    (∀ (q : PacketQueue) (now : Nat),
      (∀ e ∈ q.packets, e.enqueue_time ≤ now) → now < U32 →
        (q.cleanExpired now).1.packets
            = q.packets.filter
                (fun e => decide (now - e.enqueue_time < mul32 q.packetExpirySeconds 1000))
        ∧ (q.cleanExpired now).1.stats
            = { q.stats with expiredPackets := q.stats.expiredPackets
                  + (q.packets.filter
                      (fun e => decide (mul32 q.packetExpirySeconds 1000 ≤ now - e.enqueue_time))).length }
        ∧ (q.cleanExpired now).2
            = (q.packets.filter
                (fun e => decide (mul32 q.packetExpirySeconds 1000 ≤ now - e.enqueue_time))).map
                (·.packet))
    ∧ (∀ (q : PriorityPacketQueue) (now : Nat),
      (∀ e ∈ q.packets, e.enqueue_time ≤ now) → now < U32 →
        (q.cleanExpired now).1.packets.Perm
            (q.packets.filter
              (fun e => decide (now - e.enqueue_time < mul32 q.packetExpirySeconds 1000)))
        ∧ (q.cleanExpired now).1.stats
            = { q.stats with expiredPackets := q.stats.expiredPackets
                  + (q.packets.filter
                      (fun e => decide (mul32 q.packetExpirySeconds 1000 ≤ now - e.enqueue_time))).length }
        ∧ (q.cleanExpired now).2.Perm
            ((q.packets.filter
                (fun e => decide (mul32 q.packetExpirySeconds 1000 ≤ now - e.enqueue_time))).map
                (·.packet)))
    ∧ (∀ s : Nat, s * 1000 < U32 → mul32 s 1000 = s * 1000)
    ∧ ((fifoT0.cleanExpired 10999).1.packets = fifoT0.packets
        ∧ (fifoT0.cleanExpired 10999).1.stats.expiredPackets = 0
        ∧ (fifoT0.cleanExpired 10999).2 = []
        ∧ (fifoT0.cleanExpired 11001).1.packets = []
        ∧ (fifoT0.cleanExpired 11001).1.stats.expiredPackets = 1
        ∧ (fifoT0.cleanExpired 11001).2 = [pkt 1]
        ∧ (pqT0.cleanExpired 10999).1.packets = pqT0.packets
        ∧ (pqT0.cleanExpired 10999).1.stats.expiredPackets = 0
        ∧ (pqT0.cleanExpired 10999).2 = []
        ∧ (pqT0.cleanExpired 11001).1.packets = []
        ∧ (pqT0.cleanExpired 11001).1.stats.expiredPackets = 1
        ∧ (pqT0.cleanExpired 11001).2 = [pkt 1]) := by
  refine ⟨?_, ?_, fun s h => mul32_eq_of_lt h, by decide⟩
  · intro q now h1 h2
    have hsub : ∀ e ∈ q.packets, sub32 now e.enqueue_time = now - e.enqueue_time :=
      fun e he => sub32_of_le (h1 e he) h2
    have hkf : q.packets.filter
          (fun e => decide (sub32 now e.enqueue_time < mul32 q.packetExpirySeconds 1000))
        = q.packets.filter
          (fun e => decide (now - e.enqueue_time < mul32 q.packetExpirySeconds 1000)) :=
      List.filter_congr (fun e he => by rw [hsub e he])
    have hef : q.packets.filter
          (fun e => decide (mul32 q.packetExpirySeconds 1000 ≤ sub32 now e.enqueue_time))
        = q.packets.filter
          (fun e => decide (mul32 q.packetExpirySeconds 1000 ≤ now - e.enqueue_time)) :=
      List.filter_congr (fun e he => by rw [hsub e he])
    simp only [PacketQueue.cleanExpired, fifoCleanLoop_eq, hkf, hef]
    exact ⟨trivial, trivial, trivial⟩
  · intro q now h1 h2
    have hsub : ∀ e ∈ q.packets, sub32 now e.enqueue_time = now - e.enqueue_time :=
      fun e he => sub32_of_le (h1 e he) h2
    have hkf : q.packets.filter
          (fun e => decide (sub32 now e.enqueue_time < mul32 q.packetExpirySeconds 1000))
        = q.packets.filter
          (fun e => decide (now - e.enqueue_time < mul32 q.packetExpirySeconds 1000)) :=
      List.filter_congr (fun e he => by rw [hsub e he])
    have hef : q.packets.filter
          (fun e => decide (mul32 q.packetExpirySeconds 1000 ≤ sub32 now e.enqueue_time))
        = q.packets.filter
          (fun e => decide (mul32 q.packetExpirySeconds 1000 ≤ now - e.enqueue_time)) :=
      List.filter_congr (fun e he => by rw [hsub e he])
    have hcl := pqCleanLoop_perm (mul32 q.packetExpirySeconds 1000) now q.packets
    refine ⟨?_, ?_, ?_⟩
    · have := hcl.1
      rw [hkf] at this
      simpa [PriorityPacketQueue.cleanExpired] using this
    · have := hcl.2.1
      rw [hef] at this
      simp [PriorityPacketQueue.cleanExpired, this]
    · have := hcl.2.2
      rw [hef] at this
      simpa [PriorityPacketQueue.cleanExpired] using this

/-- Witness for C4 at the t0+10001 ms eviction on the concrete FIFO queue. -/
theorem cleanExpired_evicts_exactly_aged_witness :
    ((∀ e ∈ fifoT0.packets, e.enqueue_time ≤ 11001) ∧ 11001 < U32)
    ∧ ((fifoT0.cleanExpired 11001).1.packets
          = fifoT0.packets.filter
              (fun e => decide (11001 - e.enqueue_time < mul32 fifoT0.packetExpirySeconds 1000))
        ∧ (fifoT0.cleanExpired 11001).1.stats
            = { fifoT0.stats with expiredPackets := fifoT0.stats.expiredPackets
                  + (fifoT0.packets.filter
                      (fun e => decide (mul32 fifoT0.packetExpirySeconds 1000 ≤ 11001 - e.enqueue_time))).length }
        ∧ (fifoT0.cleanExpired 11001).2
            = (fifoT0.packets.filter
                (fun e => decide (mul32 fifoT0.packetExpirySeconds 1000 ≤ 11001 - e.enqueue_time))).map
                (·.packet)) :=
  ⟨⟨by decide, by decide⟩,
   cleanExpired_evicts_exactly_aged.1 fifoT0 11001 (by decide) (by decide)⟩

/-- Score-1 packet: no flags, plain text port. -/
def pktScore1 : MeshPacket :=
  { id := 10, want_ack := false, priority := .DEFAULT
    payload_variant := .decoded .TEXT_MESSAGE_APP, payloadlen := 1 }

/-- Score-2 packet: position-report port. -/
def pktScore2 : MeshPacket :=
  { id := 20, want_ack := false, priority := .DEFAULT
    payload_variant := .decoded .POSITION_APP, payloadlen := 1 }

/-- Score-4 packet: wants an ack and is on the position-report port. -/
def pktScore4 : MeshPacket :=
  { id := 40, want_ack := true, priority := .DEFAULT
    payload_variant := .decoded .POSITION_APP, payloadlen := 1 }

/-- Score-5 packet: emergency-report port. -/
def pktScore5 : MeshPacket :=
  { id := 50, want_ack := false, priority := .DEFAULT
    payload_variant := .decoded .EMERGENCY_APP, payloadlen := 1 }

/-- The priority queue after enqueueing packets with scores [2,5,1,4]. -/
def pqScores : PriorityPacketQueue :=
  [pktScore2, pktScore5, pktScore1, pktScore4].foldl
    (fun q p => (q.enqueue p 0).2) emptyPQQueue

def pqDeq1 : Option MeshPacket × PriorityPacketQueue := pqScores.dequeue 0
def pqDeq2 : Option MeshPacket × PriorityPacketQueue := pqDeq1.2.dequeue 0
def pqDeq3 : Option MeshPacket × PriorityPacketQueue := pqDeq2.2.dequeue 0
def pqDeq4 : Option MeshPacket × PriorityPacketQueue := pqDeq3.2.dequeue 0

/-- The head entry of `pqScores` and its remaining entries. -/
def pqScoresHead : PQQueuedPacket :=
  { packet := pktScore2, enqueue_time := 0, priority := 2 }

def pqScoresTail : List PQQueuedPacket :=
  [{ packet := pktScore5, enqueue_time := 0, priority := 5 },
   { packet := pktScore1, enqueue_time := 0, priority := 1 },
   { packet := pktScore4, enqueue_time := 0, priority := 4 }]

/-- **C5.**  Each packet's score is computed once at enqueue time as 1, plus
2 if the packet wants an acknowledgement, plus 3 if its declared priority is
reliable (else plus 2 if acknowledgement priority), plus 1 if it is on the
position-report port, plus 4 if it is on the emergency-report port; every
dequeue returns an entry of maximal score among those queued; and packets
with scores [2,5,1,4] enqueued in that order are dequeued in the order
5,4,2,1. -/
theorem calculatePriority_and_dequeue_order :
    (∀ p : MeshPacket,
      calculatePriority p =
        1 + (if p.want_ack then 2 else 0)
          + (if p.priority = MPriority.RELIABLE then 3
             else if p.priority = MPriority.ACK then 2 else 0)
          + (if p.payload_variant = PayloadVariant.decoded PortNum.POSITION_APP then 1 else 0)
          + (if p.payload_variant = PayloadVariant.decoded PortNum.EMERGENCY_APP then 4 else 0))
    ∧ (∀ (q : PriorityPacketQueue) (now : Nat) (e : PQQueuedPacket)
          (rest : List PQQueuedPacket),
        q.packets = e :: rest →
          (q.dequeue now).1 = some (pqSelect e rest).1.packet
          ∧ (q.dequeue now).2.packets = (pqSelect e rest).2
          ∧ ∀ x ∈ q.packets, x.priority ≤ (pqSelect e rest).1.priority)
    ∧ (calculatePriority pktScore2 = 2 ∧ calculatePriority pktScore5 = 5
        ∧ calculatePriority pktScore1 = 1 ∧ calculatePriority pktScore4 = 4
        ∧ pqDeq1.1 = some pktScore5 ∧ pqDeq2.1 = some pktScore4
        ∧ pqDeq3.1 = some pktScore2 ∧ pqDeq4.1 = some pktScore1
        ∧ pqDeq4.2.packets = []) := by
  refine ⟨?_, ?_, by decide⟩
  · intro p
    obtain ⟨i, wa, pr, pv, len⟩ := p
    cases pv with
    | decoded port => cases wa <;> cases pr <;> cases port <;> rfl
    | encrypted => cases wa <;> cases pr <;> rfl
  · intro q now e rest h
    refine ⟨?_, ?_, ?_⟩
    · simp [PriorityPacketQueue.dequeue, h, pqPopMax]
    · simp [PriorityPacketQueue.dequeue, h, pqPopMax]
    · rw [h]
      exact pqSelect_max e rest

/-- Witness for C5's dequeue-max clause at the concrete [2,5,1,4] queue. -/
theorem calculatePriority_and_dequeue_order_witness :
    pqScores.packets = pqScoresHead :: pqScoresTail
    ∧ ((pqScores.dequeue 0).1 = some (pqSelect pqScoresHead pqScoresTail).1.packet
        ∧ (pqScores.dequeue 0).2.packets = (pqSelect pqScoresHead pqScoresTail).2
        ∧ ∀ x ∈ pqScores.packets, x.priority ≤ (pqSelect pqScoresHead pqScoresTail).1.priority) :=
  ⟨by decide,
   calculatePriority_and_dequeue_order.2.1 pqScores 0 pqScoresHead pqScoresTail (by decide)⟩

/-- A FIFO radio at 18:00 (window 09:00-17:00 closed) holding one queued
packet. -/
def radioSuppressedQ : FifoRadio :=
  { config := cfgDay, disabled := false
    queue := { maxQueueSize := 5, packetExpirySeconds := 3600
               packets := [{ packet := pkt 3, enqueue_time := millis1800 }]
               stats := QueueStats.reset }
    attempts := [], released := [] }

/-- **C7 counterexample.**  The claim says a drain call is a no-op whenever
the window verdict is Suppressed; but the FIFO drain
(`RadioInterface.cpp::processQueuedPackets`) never re-checks the window: at
18:00, with the 09:00-17:00 window closed (`isOperationAllowed` false), it
still dequeues and transmits the queued packet. -/
theorem drain_ignores_window_cex :
    isOperationAllowed radioSuppressedQ.config millis1800 = false
    ∧ (FifoRadio.processQueuedPackets (fun _ => ErrorCode.ok)
        (fun _ => millis1800) radioSuppressedQ).attempts = [pkt 3]
    ∧ (FifoRadio.processQueuedPackets (fun _ => ErrorCode.ok)
        (fun _ => millis1800) radioSuppressedQ).queue.packets = [] := by
  decide

/-- **C7 (amended).**  A drain call is a no-op — zero packets processed, no
transmit invocation, queue contents and statistics unchanged — whenever the
time-window feature is disabled (all three drain variants); the
`RadioInterfaceTime.cpp` variant is additionally a no-op when the window
verdict is Suppressed, but the FIFO and priority drain variants do not
consult the window verdict and will drain even when it is Suppressed. -/
theorem drain_noop_amended :
    (∀ (prim : MeshPacket → ErrorCode) (clock : Nat → Nat) (st : FifoRadio),
      st.config.has_lora = false ∨ st.config.lora.time_window_enabled = false →
        FifoRadio.processQueuedPackets prim clock st = st)
    ∧ (∀ (prim : MeshPacket → ErrorCode) (clock : Nat → Nat) (maxPPC : Nat)
          (st : PQRadio),
      st.config.has_lora = false ∨ st.config.lora.time_window_enabled = false →
        PQRadio.processQueuedPackets prim clock maxPPC st = (st, 0))
    ∧ (∀ (send : MeshPacket → ErrorCode) (st : TimeRadio) (now : Nat),
      st.config.has_lora = false ∨ st.config.lora.time_window_enabled = false
        ∨ isOperationAllowed st.config now = false →
        TimeRadio.processQueuedPackets send st now = st) := by
  refine ⟨?_, ?_, ?_⟩
  · intro prim clock st h
    rcases h with h | h <;> simp [FifoRadio.processQueuedPackets, h]
  · intro prim clock maxPPC st h
    rcases h with h | h <;> simp [PQRadio.processQueuedPackets, h]
  · intro send st now h
    rcases h with h | h | h <;> simp [TimeRadio.processQueuedPackets, h]

/-- A FIFO radio with the time-window feature disabled. -/
def radioDisabled : FifoRadio :=
  { config := { has_lora := true
                lora := { cfgDay.lora with time_window_enabled := false } }
    disabled := false
    queue := fullFifoQueue, attempts := [], released := [] }

/-- Witness for C7's amended theorem: a drain with the feature disabled. -/
theorem drain_noop_amended_witness :
    (radioDisabled.config.has_lora = false
      ∨ radioDisabled.config.lora.time_window_enabled = false)
    ∧ FifoRadio.processQueuedPackets (fun _ => ErrorCode.ok) (fun _ => 0)
        radioDisabled = radioDisabled :=
  ⟨Or.inr (by decide),
   drain_noop_amended.1 (fun _ => ErrorCode.ok) (fun _ => 0) radioDisabled
     (Or.inr (by decide))⟩

theorem pqSendPacket_attempts_le (prim : MeshPacket → ErrorCode)
    (st : PQRadio) (p : MeshPacket) :
    (PQRadio.sendPacket prim st p).2.attempts.length ≤ st.attempts.length + 1 := by
  unfold PQRadio.sendPacket
  split
  · simp_arith
  · split <;> simp_arith

theorem fifoSendPacket_attempts_le (prim : MeshPacket → ErrorCode)
    (st : FifoRadio) (p : MeshPacket) :
    (FifoRadio.sendPacket prim st p).2.attempts.length ≤ st.attempts.length + 1 := by
  unfold FifoRadio.sendPacket
  split
  · simp_arith
  · split <;> simp_arith

/-- The priority drain loop never makes more transmit attempts than its
remaining packet budget `maxPPC - processed`. -/
theorem pqDrainLoop_attempts_le (prim : MeshPacket → ErrorCode) (clock : Nat → Nat)
    (startTime maxPPC : Nat) :
    ∀ (fuel i processed : Nat) (st : PQRadio),
      (pqDrainLoop prim clock startTime maxPPC fuel i processed st).1.attempts.length
        ≤ st.attempts.length + (maxPPC - processed) := by
  intro fuel
  induction fuel with
  | zero => intro i processed st; simp [pqDrainLoop]
  | succ fuel ih =>
      intro i processed st
      simp only [pqDrainLoop]
      split
      · simp
      · rename_i e rest heq
        split
        · rename_i hguard
          split
          · rename_i hok
            refine le_trans (ih (i + 1) (processed + 1) _) ?_
            have hsp := pqSendPacket_attempts_le prim
              { st with queue := (st.queue.dequeue (clock i)).2 }
              (pqSelect e rest).1.packet
            simp only at hsp ⊢
            omega
          · rename_i hfail
            have hsp := pqSendPacket_attempts_le prim
              { st with queue := (st.queue.dequeue (clock i)).2 }
              (pqSelect e rest).1.packet
            split <;> (simp only at hsp ⊢; omega)
        · simp

/-- The priority drain loop returns immediately once the elapsed-time budget
(100 ms) or the per-cycle packet budget is exhausted. -/
theorem pqDrainLoop_stops_at_budget (prim : MeshPacket → ErrorCode)
    (clock : Nat → Nat) (startTime maxPPC : Nat) :
    ∀ (fuel i processed : Nat) (st : PQRadio),
      100 ≤ sub32 (clock i) startTime ∨ maxPPC ≤ processed →
      pqDrainLoop prim clock startTime maxPPC fuel i processed st = (st, processed) := by
  intro fuel i processed st h
  cases fuel with
  | zero => simp [pqDrainLoop]
  | succ fuel =>
      simp only [pqDrainLoop]
      split
      · rfl
      · split
        · rename_i hguard
          exfalso
          omega
        · rfl

/-- The FIFO drain loop makes at most `fuel` transmit attempts. -/
theorem fifoDrainLoop_attempts_le (prim : MeshPacket → ErrorCode) (clock : Nat → Nat) :
    ∀ (fuel i : Nat) (st : FifoRadio),
      (fifoDrainLoop prim clock fuel i st).attempts.length ≤ st.attempts.length + fuel := by
  intro fuel
  induction fuel with
  | zero => intro i st; simp [fifoDrainLoop]
  | succ fuel ih =>
      intro i st
      simp only [fifoDrainLoop]
      split
      · simp
      · rename_i front rest heq
        split
        · refine le_trans (ih (i + 1) _) ?_
          have hsp := fifoSendPacket_attempts_le prim
            { st with queue := (st.queue.dequeue (clock i)).2 } front.packet
          simp only at hsp ⊢
          omega
        · have hsp := fifoSendPacket_attempts_le prim
            { st with queue := (st.queue.dequeue (clock i)).2 } front.packet
          split <;> (simp only at hsp ⊢; omega)

theorem filter_self_idem {A : Type} (f : A → Bool) (l : List A) :
    (l.filter f).filter f = l.filter f := by
  rw [List.filter_filter]
  exact List.filter_congr (fun a _ => Bool.and_self (f a))

theorem timeClean_config (st : TimeRadio) (now : Nat) :
    (st.cleanExpiredPackets now).config = st.config := by
  unfold TimeRadio.cleanExpiredPackets
  split <;> rfl

theorem timeClean_eq_of_enabled (st : TimeRadio) (now : Nat)
    (hg : (!st.config.has_lora || !st.config.lora.time_window_enabled) = false) :
    st.cleanExpiredPackets now =
      { st with
        packetQueue := (fifoCleanLoop
          (mul32 st.config.lora.window_packet_expire_secs 1000) now st.packetQueue).1
        released := st.released ++ (fifoCleanLoop
          (mul32 st.config.lora.window_packet_expire_secs 1000) now st.packetQueue).2.2 } := by
  unfold TimeRadio.cleanExpiredPackets
  rw [if_neg (by simp [hg])]

/-- Scanning an already-scanned queue again (same clock sample) keeps it
unchanged: the kept entries are a filter, and filtering is idempotent. -/
theorem timeClean_queue_idem (st : TimeRadio) (now : Nat) :
    ((st.cleanExpiredPackets now).cleanExpiredPackets now).packetQueue
      = (st.cleanExpiredPackets now).packetQueue := by
  cases hg : (!st.config.has_lora || !st.config.lora.time_window_enabled) with
  | true =>
      have h1 : st.cleanExpiredPackets now = st := by
        unfold TimeRadio.cleanExpiredPackets
        rw [if_pos hg]
      rw [h1, h1]
  | false =>
      rw [timeClean_eq_of_enabled st now hg]
      rw [timeClean_eq_of_enabled
        { st with
          packetQueue := (fifoCleanLoop
            (mul32 st.config.lora.window_packet_expire_secs 1000) now st.packetQueue).1
          released := st.released ++ (fifoCleanLoop
            (mul32 st.config.lora.window_packet_expire_secs 1000) now st.packetQueue).2.2 }
        now hg]
      simp only [fifoCleanLoop_eq]
      exact filter_self_idem _ _

/-- The `RadioInterfaceTime.cpp` drain never completes when the feature is
enabled, the window verdict allows transmission, and the (cleaned) queue is
nonempty: at every call-depth budget the fuel-indexed model returns `none`,
because the loop's inner `RadioInterface::send` re-enters
`processQueuedPackets` on the unchanged queue and ends in an unconditional
self-call (line 120). -/
theorem timeProcessGo_diverges :
    ∀ (fuel : Nat) (st : TimeRadio) (nowMillis : Nat),
      st.config.has_lora = true →
      st.config.lora.time_window_enabled = true →
      isOperationAllowed st.config nowMillis = true →
      (st.cleanExpiredPackets nowMillis).packetQueue ≠ [] →
      timeProcessGo fuel st nowMillis = none := by
  intro fuel
  induction fuel using Nat.strong_induction_on with
  | _ fuel ih =>
      intro st nowMillis h1 h2 h3 hne
      cases fuel with
      | zero => rfl
      | succ f =>
          simp only [timeProcessGo]
          rw [if_neg (by simp [h1, h2, h3])]
          cases f with
          | zero => rfl
          | succ g =>
              obtain ⟨e, rest, hq⟩ := List.exists_cons_of_ne_nil hne
              simp only [timeLoopGo, hq]
              have hsend : timeSendGo g (st.cleanExpiredPackets nowMillis)
                  e.packet nowMillis = none := by
                cases g with
                | zero => rfl
                | succ k =>
                    have hc1 := timeClean_config st nowMillis
                    simp only [timeSendGo, hc1]
                    rw [if_pos (by simp [h1, h2])]
                    rw [if_pos h3]
                    have hrec : timeProcessGo k (st.cleanExpiredPackets nowMillis)
                        nowMillis = none := by
                      apply ih k (by omega) _ nowMillis
                      · rw [hc1]; exact h1
                      · rw [hc1]; exact h2
                      · rw [hc1]; exact h3
                      · rw [timeClean_queue_idem]
                        exact hne
                    rw [hrec]
              rw [hsend]

/-- Two packets queued behind an enabled config. -/
def radioTwo : FifoRadio :=
  { config := cfgDay, disabled := false
    queue := { maxQueueSize := 5, packetExpirySeconds := 3600
               packets := [{ packet := pkt 4, enqueue_time := 0 },
                           { packet := pkt 5, enqueue_time := 0 }]
               stats := QueueStats.reset }
    attempts := [], released := [] }

/-- **C8 counterexample.**  The claim says every drain cycle stops once
elapsed wall-clock time reaches `max_cycle_duration`; but the FIFO drain
(`RadioInterface.cpp` / `RadioInterfaceTime.cpp` variants) never samples the
elapsed time: with the clock advancing 1000 ms per iteration (so the elapsed
time already equals 1000 ms >= the code's 100 ms cycle budget at the first
loop iteration), it still attempts both queued packets. -/
theorem drain_unbounded_fifo_cex :
    100 ≤ sub32 1000 0
    ∧ (FifoRadio.processQueuedPackets (fun _ => ErrorCode.ok)
        (fun i => 1000 * i) radioTwo).attempts = [pkt 4, pkt 5] := by
  decide

/-- A priority radio holding one queued packet behind an enabled config. -/
def pqRadioOne : PQRadio :=
  { config := cfgDay, disabled := false
    queue := { maxQueueSize := 5, packetExpirySeconds := 3600
               packets := [{ packet := pkt 6, enqueue_time := 0
                             priority := calculatePriority (pkt 6) }]
               stats := QueueStats.reset, lastPriority := 0 }
    metrics := { lastProcessTime := 0, highPriorityCount := 0
                 normalPriorityCount := 0, dropCount := 0 }
    attempts := [], released := [] }

/-- **C8 (amended).**  Only the priority drain variant
(`RadioInterfaceQueue.cpp`) enforces the per-cycle budgets: it attempts at
most `max_packets_per_cycle` transmissions per cycle, and its loop returns
immediately once elapsed time reaches the 100 ms cycle budget (or the packet
budget is exhausted).  The `RadioInterface.cpp` FIFO drain checks neither
budget and is bounded only by the queue occupancy (at most one transmit
attempt per queued packet).  The `RadioInterfaceTime.cpp` drain is not
bounded at all: its loop calls the full `RadioInterface::send`, which
re-enters `processQueuedPackets` on the unchanged queue and ends in an
unconditional self-call, so with the feature enabled, the window open and
the queue nonempty that drain completes at no call depth — it never
terminates (last conjunct, over the fuel-indexed model). -/
theorem drain_bounds_amended :
    (∀ (prim : MeshPacket → ErrorCode) (clock : Nat → Nat) (maxPPC : Nat)
        (st : PQRadio),
      (PQRadio.processQueuedPackets prim clock maxPPC st).1.attempts.length
        ≤ st.attempts.length + maxPPC)
    ∧ (∀ (prim : MeshPacket → ErrorCode) (clock : Nat → Nat)
          (startTime maxPPC fuel i processed : Nat) (st : PQRadio),
        100 ≤ sub32 (clock i) startTime ∨ maxPPC ≤ processed →
          pqDrainLoop prim clock startTime maxPPC fuel i processed st = (st, processed))
    ∧ (∀ (prim : MeshPacket → ErrorCode) (clock : Nat → Nat) (st : FifoRadio),
        (FifoRadio.processQueuedPackets prim clock st).attempts.length
          ≤ st.attempts.length + st.queue.packets.length)
    ∧ (∀ (fuel : Nat) (st : TimeRadio) (nowMillis : Nat),
        st.config.has_lora = true →
        st.config.lora.time_window_enabled = true →
        isOperationAllowed st.config nowMillis = true →
        (st.cleanExpiredPackets nowMillis).packetQueue ≠ [] →
        timeProcessGo fuel st nowMillis = none) := by
  refine ⟨?_, pqDrainLoop_stops_at_budget, ?_, timeProcessGo_diverges⟩
  · intro prim clock maxPPC st
    unfold PQRadio.processQueuedPackets
    split
    · simp
    · refine le_trans (pqDrainLoop_attempts_le prim clock (clock 0) maxPPC _ 1 0 _) ?_
      simp only
      omega
  · intro prim clock st
    unfold FifoRadio.processQueuedPackets
    split
    · simp
    · refine le_trans (fifoDrainLoop_attempts_le prim clock _ 1 _) ?_
      have hle : (st.queue.cleanExpired (clock 0)).1.packets.length
          ≤ st.queue.packets.length := by
        simp only [PacketQueue.cleanExpired, fifoCleanLoop_eq]
        exact List.length_filter_le _ _
      simp only at hle ⊢
      omega

/-- A `RadioInterfaceTime.cpp` radio at 12:00 (window 09:00-17:00 open)
holding one queued, unexpired packet. -/
def timeRadioOpen : TimeRadio :=
  { config := cfgDay
    packetQueue := [{ packet := pkt 7, enqueue_time := 43200000 }]
    attempts := [], released := [] }

/-- Witness for C8's amended theorem: the budget-stop clause at a clock that
has already exceeded the 100 ms budget, and the divergence clause at a
concrete open-window state with fuel 10. -/
theorem drain_bounds_amended_witness :
    ((100 ≤ sub32 1000 0 ∨ (5 : Nat) ≤ 0)
      ∧ pqDrainLoop (fun _ => ErrorCode.ok) (fun _ => 1000) 0 5 3 1 0 pqRadioOne
          = (pqRadioOne, 0))
    ∧ ((timeRadioOpen.config.has_lora = true
        ∧ timeRadioOpen.config.lora.time_window_enabled = true
        ∧ isOperationAllowed timeRadioOpen.config 43200000 = true
        ∧ (timeRadioOpen.cleanExpiredPackets 43200000).packetQueue ≠ [])
      ∧ timeProcessGo 10 timeRadioOpen 43200000 = none) :=
  ⟨⟨Or.inl (by decide),
    drain_bounds_amended.2.1 (fun _ => ErrorCode.ok) (fun _ => 1000) 0 5 3 1 0
      pqRadioOne (Or.inl (by decide))⟩,
   ⟨⟨by decide, by decide, by decide, by decide⟩,
    drain_bounds_amended.2.2.2 10 timeRadioOpen 43200000 (by decide) (by decide)
      (by decide) (by decide)⟩⟩

/-- Pointwise order on the three monotone counters of `QueueStats`. -/
def statsLe (a b : QueueStats) : Prop :=
  a.totalQueued ≤ b.totalQueued
    ∧ a.expiredPackets ≤ b.expiredPackets
    ∧ a.queueOverflows ≤ b.queueOverflows

theorem statsLe_refl (a : QueueStats) : statsLe a a :=
  ⟨Nat.le_refl _, Nat.le_refl _, Nat.le_refl _⟩

theorem statsLe_trans {a b c : QueueStats} (h1 : statsLe a b) (h2 : statsLe b c) :
    statsLe a c :=
  ⟨Nat.le_trans h1.1 h2.1, Nat.le_trans h1.2.1 h2.2.1, Nat.le_trans h1.2.2 h2.2.2⟩

theorem PacketQueue.enqueue_statsLe (q : PacketQueue) (p : MeshPacket) (now : Nat) :
    statsLe q.stats (q.enqueue p now).2.stats := by
  unfold PacketQueue.enqueue
  by_cases h : q.maxQueueSize ≤ q.packets.length
  · rw [if_pos h]
    exact ⟨Nat.le_refl _, Nat.le_refl _, Nat.le_succ _⟩
  · rw [if_neg h]
    exact ⟨Nat.le_succ _, Nat.le_refl _, Nat.le_refl _⟩

theorem PacketQueue.dequeue_statsLe (q : PacketQueue) (now : Nat) :
    statsLe q.stats (q.dequeue now).2.stats := by
  unfold PacketQueue.dequeue
  split
  · exact statsLe_refl _
  · exact ⟨Nat.le_refl _, Nat.le_refl _, Nat.le_refl _⟩

theorem PacketQueue.cleanExpired_statsLe (q : PacketQueue) (now : Nat) :
    statsLe q.stats (q.cleanExpired now).1.stats := by
  unfold PacketQueue.cleanExpired
  exact ⟨Nat.le_refl _, Nat.le_add_right _ _, Nat.le_refl _⟩

theorem PacketQueue.clear_statsLe (q : PacketQueue) :
    statsLe q.stats (q.clear).1.stats :=
  statsLe_refl _

theorem FifoRadio.sendPacket_queue_eq (prim : MeshPacket → ErrorCode)
    (st : FifoRadio) (p : MeshPacket) :
    (FifoRadio.sendPacket prim st p).2.queue = st.queue := by
  unfold FifoRadio.sendPacket
  split
  · rfl
  · split <;> rfl

theorem fifoDrainLoop_statsLe (prim : MeshPacket → ErrorCode) (clock : Nat → Nat) :
    ∀ (fuel i : Nat) (st : FifoRadio),
      statsLe st.queue.stats (fifoDrainLoop prim clock fuel i st).queue.stats := by
  intro fuel
  induction fuel with
  | zero => intro i st; exact statsLe_refl _
  | succ fuel ih =>
      intro i st
      simp only [fifoDrainLoop]
      split
      · exact statsLe_refl _
      · rename_i front rest heq
        have hdq := PacketQueue.dequeue_statsLe st.queue (clock i)
        have hq1 := FifoRadio.sendPacket_queue_eq prim
          { st with queue := (st.queue.dequeue (clock i)).2 } front.packet
        split
        · refine statsLe_trans hdq ?_
          refine statsLe_trans ?_ (ih (i + 1) _)
          rw [hq1]
          exact statsLe_refl _
        · split <;>
          · simp only [hq1]
            exact statsLe_trans hdq
              (PacketQueue.enqueue_statsLe (st.queue.dequeue (clock i)).2
                front.packet (clock i))

theorem FifoRadio.processQueuedPackets_statsLe (prim : MeshPacket → ErrorCode)
    (clock : Nat → Nat) (st : FifoRadio) :
    statsLe st.queue.stats
      (FifoRadio.processQueuedPackets prim clock st).queue.stats := by
  unfold FifoRadio.processQueuedPackets
  split
  · exact statsLe_refl _
  · dsimp only
    refine statsLe_trans (PacketQueue.cleanExpired_statsLe st.queue (clock 0)) ?_
    exact fifoDrainLoop_statsLe prim clock
      (st.queue.cleanExpired (clock 0)).1.packets.length 1
      { st with queue := (st.queue.cleanExpired (clock 0)).1
                released := st.released ++ (st.queue.cleanExpired (clock 0)).2 }

theorem applyOp_statsLe (op : QueueOp) (st : FifoRadio)
    (h : op ≠ QueueOp.resetStats) :
    statsLe st.queue.stats (applyOp op st).queue.stats := by
  cases op with
  | enq p now => exact PacketQueue.enqueue_statsLe st.queue p now
  | deq now => exact PacketQueue.dequeue_statsLe st.queue now
  | clean now => exact PacketQueue.cleanExpired_statsLe st.queue now
  | clearq => exact statsLe_refl _
  | drain prim clock => exact FifoRadio.processQueuedPackets_statsLe prim clock st
  | resetStats => exact absurd rfl h

/-- **C9.**  Across any sequence of enqueue, dequeue, expiry-eviction, clear,
and drain operations, the counters `total_queued`, `expired`, and `overflows`
never decrease; the explicit operator statistics-reset is the only operation
that may decrease them, and it sets them to zero; and `clear()` releases
every held packet and empties the queue while leaving all statistics
counters intact. -/
theorem stats_monotone_and_reset :
    (∀ (ops : List QueueOp) (st : FifoRadio), QueueOp.resetStats ∉ ops →
      statsLe st.queue.stats (runOps ops st).queue.stats)
    ∧ (∀ st : FifoRadio,
        (applyOp QueueOp.resetStats st).queue.stats = QueueStats.reset
        ∧ QueueStats.reset.totalQueued = 0 ∧ QueueStats.reset.expiredPackets = 0
        ∧ QueueStats.reset.queueOverflows = 0)
    ∧ (∀ st : FifoRadio,
        (applyOp QueueOp.clearq st).queue.packets = []
        ∧ (applyOp QueueOp.clearq st).queue.stats = st.queue.stats
        ∧ (applyOp QueueOp.clearq st).released
            = st.released ++ st.queue.packets.map (·.packet)) := by
  refine ⟨?_, ?_, ?_⟩
  · intro ops
    induction ops with
    | nil => intro st _; exact statsLe_refl _
    | cons op ops ih =>
        intro st hmem
        have hop : op ≠ QueueOp.resetStats := by
          intro hcontra
          exact hmem (hcontra ▸ List.mem_cons_self op ops)
        have hops : QueueOp.resetStats ∉ ops := by
          intro hcontra
          exact hmem (List.mem_cons_of_mem op hcontra)
        exact statsLe_trans (applyOp_statsLe op st hop) (ih (applyOp op st) hops)
  · intro st
    exact ⟨rfl, rfl, rfl, rfl⟩
  · intro st
    exact ⟨rfl, rfl, rfl⟩

/-- Witness for C9 at a concrete reset-free operation sequence. -/
theorem stats_monotone_and_reset_witness :
    QueueOp.resetStats ∉
      [QueueOp.enq (pkt 1) 0, QueueOp.deq 1, QueueOp.clean 2, QueueOp.clearq]
    ∧ statsLe radioDayEmpty.queue.stats
        (runOps [QueueOp.enq (pkt 1) 0, QueueOp.deq 1, QueueOp.clean 2, QueueOp.clearq]
          radioDayEmpty).queue.stats :=
  ⟨by simp, stats_monotone_and_reset.1
    [QueueOp.enq (pkt 1) 0, QueueOp.deq 1, QueueOp.clean 2, QueueOp.clearq]
    radioDayEmpty (by simp)⟩

/-- One step of the priority drain loop when the transmit primitive fails for
the dequeued packet: the processed count is unchanged, exactly that packet
was attempted, and it is either re-enqueued as a new arrival (fresh
timestamp) or — when the queue is full — released exactly once and counted
as dropped, the loop stopping either way. -/
theorem pqDrainLoop_first_fail (prim : MeshPacket → ErrorCode) (clock : Nat → Nat)
    (startTime maxPPC fuel i processed : Nat) (st : PQRadio)
    (e top : PQQueuedPacket) (rest rest2 : List PQQueuedPacket)
    (hq : st.queue.packets = e :: rest) (hsel : pqSelect e rest = (top, rest2))
    (hdis : st.disabled = false) (hlen : top.packet.payloadlen ≠ 0)
    (hfail : prim top.packet ≠ ErrorCode.ok)
    (htime : sub32 (clock i) startTime < 100) (hppc : processed < maxPPC) :
    (pqDrainLoop prim clock startTime maxPPC (fuel + 1) i processed st).2 = processed
    ∧ (pqDrainLoop prim clock startTime maxPPC (fuel + 1) i processed st).1.attempts
        = st.attempts ++ [top.packet]
    ∧ (rest2.length < st.queue.maxQueueSize →
        (pqDrainLoop prim clock startTime maxPPC (fuel + 1) i processed st).1.queue.packets
            = rest2 ++ [{ packet := top.packet, enqueue_time := clock i
                          priority := calculatePriority top.packet }]
        ∧ (pqDrainLoop prim clock startTime maxPPC (fuel + 1) i processed st).1.released
            = st.released
        ∧ (pqDrainLoop prim clock startTime maxPPC (fuel + 1) i processed st).1.metrics.dropCount
            = st.metrics.dropCount)
    ∧ (st.queue.maxQueueSize ≤ rest2.length →
        (pqDrainLoop prim clock startTime maxPPC (fuel + 1) i processed st).1.queue.packets
            = rest2
        ∧ (pqDrainLoop prim clock startTime maxPPC (fuel + 1) i processed st).1.released
            = st.released ++ [top.packet]
        ∧ (pqDrainLoop prim clock startTime maxPPC (fuel + 1) i processed st).1.metrics.dropCount
            = st.metrics.dropCount + 1) := by
  simp only [pqDrainLoop, hq, PriorityPacketQueue.dequeue, pqPopMax, hsel,
    PQRadio.sendPacket, PriorityPacketQueue.enqueue]
  rw [if_pos ⟨htime, hppc⟩]
  simp only [hdis, Bool.false_eq_true, if_false, hlen, ite_false,
    if_neg hfail, if_neg hlen]
  by_cases hroom : st.queue.maxQueueSize ≤ rest2.length
  · rw [if_pos hroom]
    refine ⟨rfl, rfl, fun hc => absurd hroom (Nat.not_le.mpr hc), fun _ => ⟨rfl, rfl, rfl⟩⟩
  · rw [if_neg hroom]
    refine ⟨rfl, rfl, fun _ => ⟨rfl, rfl, rfl⟩, fun hc => absurd hc hroom⟩

/-- **C6.**  During a drain cycle, if the transmit primitive fails for the
first dequeued packet, the cycle's processed count is 0, that packet is the
only one attempted and draining stops immediately; the packet is re-enqueued
as a new arrival (with the current clock sample as its enqueue time), and if
the re-enqueue itself fails because the queue is full, the packet is released
to the pool exactly once and counted as dropped (`dropCount`, and the queue's
overflow counter via the failed enqueue).  The hypotheses fix the cycle's
entry conditions: feature enabled, radio not disabled, the expiry scan leaves
`e :: rest` queued with `(top, rest2)` the selected maximal entry, a nonzero
payload (so `sendPacket` reaches the primitive), the primitive failing on
`top`, and the cycle's time/packet budgets not yet exhausted. -/
theorem drain_requeue_on_failure (prim : MeshPacket → ErrorCode) (clock : Nat → Nat)
    (maxPPC : Nat) (st : PQRadio) (e top : PQQueuedPacket)
    (rest rest2 : List PQQueuedPacket)
    (hcfg : st.config.has_lora = true)
    (hen : st.config.lora.time_window_enabled = true)
    (hdis : st.disabled = false)
    (hq : (st.queue.cleanExpired (clock 0)).1.packets = e :: rest)
    (hsel : pqSelect e rest = (top, rest2))
    (hplen : top.packet.payloadlen ≠ 0)
    (hfail : prim top.packet ≠ ErrorCode.ok)
    (htime : sub32 (clock 1) (clock 0) < 100)
    (hppc : 0 < maxPPC) :
    (PQRadio.processQueuedPackets prim clock maxPPC st).2 = 0
    ∧ (PQRadio.processQueuedPackets prim clock maxPPC st).1.attempts
        = st.attempts ++ [top.packet]
    ∧ (rest2.length < st.queue.maxQueueSize →
        (PQRadio.processQueuedPackets prim clock maxPPC st).1.queue.packets
            = rest2 ++ [{ packet := top.packet, enqueue_time := clock 1
                          priority := calculatePriority top.packet }]
        ∧ (PQRadio.processQueuedPackets prim clock maxPPC st).1.released
            = st.released ++ (st.queue.cleanExpired (clock 0)).2
        ∧ (PQRadio.processQueuedPackets prim clock maxPPC st).1.metrics.dropCount
            = st.metrics.dropCount)
    ∧ (st.queue.maxQueueSize ≤ rest2.length →
        (PQRadio.processQueuedPackets prim clock maxPPC st).1.queue.packets = rest2
        ∧ (PQRadio.processQueuedPackets prim clock maxPPC st).1.released
            = st.released ++ (st.queue.cleanExpired (clock 0)).2 ++ [top.packet]
        ∧ (PQRadio.processQueuedPackets prim clock maxPPC st).1.metrics.dropCount
            = st.metrics.dropCount + 1) := by
  have hstep := pqDrainLoop_first_fail prim clock (clock 0) maxPPC rest.length 1 0
    { st with queue := (st.queue.cleanExpired (clock 0)).1
              released := st.released ++ (st.queue.cleanExpired (clock 0)).2 }
    e top rest rest2 hq hsel hdis hplen hfail htime hppc
  simp only at hstep
  simp only [PQRadio.processQueuedPackets, hcfg, hen, Bool.not_true, Bool.false_or,
    Bool.or_self, if_false]
  simp only [hq, List.length_cons]
  exact hstep

/-- The single entry held by `pqRadioOne`. -/
def pqEntry6 : PQQueuedPacket :=
  { packet := pkt 6, enqueue_time := 0, priority := calculatePriority (pkt 6) }

/-- Witness for C6: a one-packet drain cycle whose transmission fails; the
queue has room, so the packet is re-enqueued as a new arrival and nothing is
released or dropped, with the cycle's processed count 0. -/
theorem drain_requeue_on_failure_witness :
    (pqRadioOne.config.has_lora = true
      ∧ pqRadioOne.config.lora.time_window_enabled = true
      ∧ pqRadioOne.disabled = false
      ∧ (pqRadioOne.queue.cleanExpired 0).1.packets = pqEntry6 :: []
      ∧ pqSelect pqEntry6 [] = (pqEntry6, [])
      ∧ pqEntry6.packet.payloadlen ≠ 0
      ∧ ErrorCode.noRadio ≠ ErrorCode.ok
      ∧ sub32 0 0 < 100
      ∧ (0 : Nat) < 5)
    ∧ ((PQRadio.processQueuedPackets (fun _ => ErrorCode.noRadio) (fun _ => 0) 5
          pqRadioOne).2 = 0
      ∧ (PQRadio.processQueuedPackets (fun _ => ErrorCode.noRadio) (fun _ => 0) 5
          pqRadioOne).1.attempts = pqRadioOne.attempts ++ [pqEntry6.packet]
      ∧ (List.length ([] : List PQQueuedPacket) < pqRadioOne.queue.maxQueueSize →
          (PQRadio.processQueuedPackets (fun _ => ErrorCode.noRadio) (fun _ => 0) 5
              pqRadioOne).1.queue.packets
              = [] ++ [{ packet := pqEntry6.packet, enqueue_time := 0
                         priority := calculatePriority pqEntry6.packet }]
          ∧ (PQRadio.processQueuedPackets (fun _ => ErrorCode.noRadio) (fun _ => 0) 5
              pqRadioOne).1.released
              = pqRadioOne.released ++ (pqRadioOne.queue.cleanExpired 0).2
          ∧ (PQRadio.processQueuedPackets (fun _ => ErrorCode.noRadio) (fun _ => 0) 5
              pqRadioOne).1.metrics.dropCount = pqRadioOne.metrics.dropCount)
      ∧ (pqRadioOne.queue.maxQueueSize ≤ List.length ([] : List PQQueuedPacket) →
          (PQRadio.processQueuedPackets (fun _ => ErrorCode.noRadio) (fun _ => 0) 5
              pqRadioOne).1.queue.packets = []
          ∧ (PQRadio.processQueuedPackets (fun _ => ErrorCode.noRadio) (fun _ => 0) 5
              pqRadioOne).1.released
              = pqRadioOne.released ++ (pqRadioOne.queue.cleanExpired 0).2
                  ++ [pqEntry6.packet]
          ∧ (PQRadio.processQueuedPackets (fun _ => ErrorCode.noRadio) (fun _ => 0) 5
              pqRadioOne).1.metrics.dropCount = pqRadioOne.metrics.dropCount + 1)) :=
  ⟨⟨by decide, by decide, by decide, by decide, by decide, by decide, by decide,
    by decide, by decide⟩,
   drain_requeue_on_failure (fun _ => ErrorCode.noRadio) (fun _ => 0) 5 pqRadioOne
     pqEntry6 pqEntry6 [] [] (by decide) (by decide) (by decide) (by decide)
     (by decide) (by decide) (by decide) (by decide) (by decide)⟩
